import Mathlib

/-!
# Vulkan backend of NXT: command replay and bind groups

A shallow embedding of `src/backend/vulkan/CommandBufferVk.cpp`
(`ComputeBufferImageCopyRegion`, `CommandBuffer::RecordCommands`) and of
`src/backend/vulkan/BindGroupVk.cpp` (`BindGroup::BindGroup`,
`BindGroup::~BindGroup`).

Conventions of the embedding.

* Frontend objects are records of the values their accessors return.  The two
  kinds of object with mutable state read by this code, buffers and textures,
  carry an identity `id`; their tracked usage lives in the replay state, keyed by
  the object.
* Every call made through `device->fn` on the command buffer being recorded, and
  every `RecordBarrier` call on a buffer or texture, is appended to a trace of
  `Call` values.  The `VkCommandBuffer` argument is the same in all of them and is
  left out.
* Unsigned 32-bit arithmetic is arithmetic on `Nat` with an explicit
  `% 2 ^ 32` where a result can wrap.  A signed 32-bit field is an `Int`; storing
  an unsigned 32-bit value in it goes through `toInt32`.
* A replay ends in a `Status`: `ok` when the code runs to its end, `fatal` when
  an `ASSERT` fails or `UNREACHABLE()` is reached, and one of the remaining
  values when the code performs an operation C++ leaves undefined (a null
  pointer dereference, an access outside an array, a division by zero).  The
  trace then holds the calls made before that point.
-/

namespace backend.vulkan

/-! ## Values declared outside the translation units -/

/-- The type `nxt::BindingType`; `Other` stands for any value outside the four named
ones. -/
inductive BindingType
  | UniformBuffer
  | Sampler
  | SampledTexture
  | StorageBuffer
  | Other (value : Nat)
  deriving DecidableEq, Repr

/-- Constants and helper functions that the two translation units use and that are
declared in headers outside of them: `kMaxColorAttachments`, `kMaxVertexInputs`,
`kMaxBindingsPerGroup` (common/Constants.h), the usage bit
`nxt::TextureUsageBit::OutputAttachment`, `TextureFormatPixelSize`, and
`VulkanDescriptorType` (BindGroupLayoutVk.h). -/
structure Headers where
  kMaxColorAttachments : Nat
  kMaxVertexInputs : Nat
  kMaxBindingsPerGroup : Nat
  OutputAttachment : Nat
  TextureFormatPixelSize : Nat → Nat
  VulkanDescriptorType : BindingType → Nat

/-- Modelled from the spec: `ASSERT` and `UNREACHABLE` (common/Assert.h) are not
part of the source tree.  Section 7 of the specification: structural violations and
native failures "abort the process/host immediately".  A failed `ASSERT` and a
reached `UNREACHABLE()` therefore end the run with `Status.fatal`; the three last
values stand for operations whose behaviour C++ leaves undefined. -/
inductive Status
  | ok
  | fatal
  | nullDereference
  | outOfBounds
  | divisionByZero
  deriving DecidableEq, Repr

/-! ## Frontend objects -/

/-- A `Buffer`: object identity and the value of `GetHandle()`. -/
structure Buffer where
  id : Nat
  handle : Nat
  deriving DecidableEq, Repr

/-- A `Texture`: object identity and the values of `GetHandle()`, `GetFormat()`
and `GetVkAspectMask()`. -/
structure Texture where
  id : Nat
  handle : Nat
  format : Nat
  aspectMask : Nat
  deriving DecidableEq, Repr

/-- A `PipelineLayout` with the value of `GetHandle()`. -/
structure PipelineLayout where
  handle : Nat
  deriving DecidableEq, Repr

/-- A `RenderPipeline` with the values of `GetHandle()` and `GetLayout()`. -/
structure RenderPipeline where
  handle : Nat
  layout : PipelineLayout
  deriving DecidableEq, Repr

/-- A `RenderPass` with the values of `GetHandle()`, `GetAttachmentCount()` and
`GetSubpassCount()`. -/
structure RenderPass where
  handle : Nat
  attachmentCount : Nat
  subpassCount : Nat
  deriving DecidableEq, Repr

/-- A `TextureView` with the value of `GetTexture()`. -/
structure TextureView where
  texture : Texture
  deriving DecidableEq, Repr

/-- A `Framebuffer` with the values of `GetHandle()`, `GetWidth()`, `GetHeight()`,
`GetTextureView(i)`, and the clear values `FillClearValues` stores. -/
structure Framebuffer where
  handle : Nat
  width : Nat
  height : Nat
  textureView : Nat → TextureView
  clearValues : List Nat

/-- The fields of a `BindGroup` of the Vulkan backend: `mPool` and `mHandle`. -/
structure BindGroup where
  mPool : Nat
  mHandle : Nat
  deriving DecidableEq, Repr

/-- The constant `VK_NULL_HANDLE`. -/
def VK_NULL_HANDLE : Nat := 0

/-- The function `BindGroup::GetHandle`: returns `mHandle`. -/
def BindGroup.GetHandle (g : BindGroup) : Nat := g.mHandle

/-! ## Commands -/

/-- A `float` value, kept symbolic: the literals `0.0f` and `1.0f`, the result of
`static_cast<float>` on an unsigned integer, and a value stored in a command. -/
inductive FloatValue
  | zero
  | one
  | ofUInt (n : Nat)
  | stored (bits : Nat)
  deriving DecidableEq, Repr

/-- The type `BufferCopyLocation`: a buffer and a byte offset. -/
structure BufferCopyLocation where
  buffer : Buffer
  offset : Nat
  deriving DecidableEq, Repr

/-- The type `TextureCopyLocation`: a texture, the origin and size of the box, and
the mip level, all `uint32_t`. -/
structure TextureCopyLocation where
  texture : Texture
  x : Nat
  y : Nat
  z : Nat
  width : Nat
  height : Nat
  depth : Nat
  level : Nat
  deriving DecidableEq, Repr

/-- One decoded record of the command stream: the command id with the fields
`RecordCommands` reads from it.  `SetVertexBuffers` is followed in the stream by
two arrays, of buffers and of offsets.  `Other` stands for every command id
without a `case` of its own. -/
inductive Command
  | CopyBufferToBuffer (source destination : BufferCopyLocation) (size : Nat)
  | CopyBufferToTexture (source : BufferCopyLocation) (destination : TextureCopyLocation)
      (rowPitch : Nat)
  | CopyTextureToBuffer (source : TextureCopyLocation) (destination : BufferCopyLocation)
      (rowPitch : Nat)
  | BeginRenderPass (renderPass : RenderPass) (framebuffer : Framebuffer)
  | BeginRenderSubpass
  | DrawArrays (vertexCount instanceCount firstVertex firstInstance : Nat)
  | DrawElements (indexCount instanceCount firstIndex firstInstance : Nat)
  | EndRenderPass
  | EndRenderSubpass
  | SetBindGroup (index : Nat) (group : BindGroup)
  | SetBlendColor (r g b a : FloatValue)
  | SetIndexBuffer (buffer : Buffer) (offset : Nat)
  | SetRenderPipeline (pipeline : RenderPipeline)
  | SetStencilReference (reference : Nat)
  | SetVertexBuffers (startSlot count : Nat) (buffers : List Buffer) (offsets : List Nat)
  | TransitionBufferUsage (buffer : Buffer) (usage : Nat)
  | TransitionTextureUsage (texture : Texture) (usage : Nat)
  | Other (id : Nat)

/-! ## Native structures and calls -/

/-- The type `VkPipelineBindPoint`. -/
inductive PipelineBindPoint
  | graphics
  | compute
  deriving DecidableEq, Repr

/-- The type `VkImageLayout`, the two values used here. -/
inductive ImageLayout
  | general
  | transferDstOptimal
  deriving DecidableEq, Repr

/-- The type `VkIndexType`. -/
inductive IndexType
  | uint16
  | uint32
  deriving DecidableEq, Repr

/-- The type `VkStencilFaceFlags`, the value used here and its two parts. -/
inductive StencilFace
  | front
  | back
  | frontAndBack
  deriving DecidableEq, Repr

/-- The type `VkSubpassContents`. -/
inductive SubpassContents
  | inline_
  | secondaryCommandBuffers
  deriving DecidableEq, Repr

/-- The type `VkBufferCopy`. -/
structure VkBufferCopy where
  srcOffset : Nat
  dstOffset : Nat
  size : Nat
  deriving DecidableEq, Repr

/-- The conversion of an unsigned 32-bit value to `int32_t`, as in the assignment of
a `uint32_t` to a field of `VkOffset3D`: the value itself below `2 ^ 31`, and the
value less `2 ^ 32` (a negative number) from `2 ^ 31` on. -/
def toInt32 (value : Nat) : Int :=
  if value % 2 ^ 32 < 2 ^ 31 then ((value % 2 ^ 32 : Nat) : Int)
  else ((value % 2 ^ 32 : Nat) : Int) - 2 ^ 32

/-- The type `VkBufferImageCopy`, with `imageSubresource`, `imageOffset` and
`imageExtent` flattened.  The three fields of `imageOffset` (a `VkOffset3D`) are
`int32_t`; the other fields are unsigned. -/
structure VkBufferImageCopy where
  bufferOffset : Nat
  bufferRowLength : Nat
  bufferImageHeight : Nat
  aspectMask : Nat
  mipLevel : Nat
  baseArrayLayer : Nat
  layerCount : Nat
  imageOffsetX : Int
  imageOffsetY : Int
  imageOffsetZ : Int
  imageExtentWidth : Nat
  imageExtentHeight : Nat
  imageExtentDepth : Nat
  deriving DecidableEq, Repr

/-- The type `VkRect2D`. -/
structure VkRect2D where
  offsetX : Nat
  offsetY : Nat
  extentWidth : Nat
  extentHeight : Nat
  deriving DecidableEq, Repr

/-- The type `VkRenderPassBeginInfo` (`sType` and `pNext` are constants and left out). -/
structure VkRenderPassBeginInfo where
  renderPass : Nat
  framebuffer : Nat
  renderArea : VkRect2D
  clearValueCount : Nat
  pClearValues : List Nat
  deriving DecidableEq, Repr

/-- The type `VkViewport`. -/
structure VkViewport where
  x : FloatValue
  y : FloatValue
  width : FloatValue
  height : FloatValue
  minDepth : FloatValue
  maxDepth : FloatValue
  deriving DecidableEq, Repr

/-- One call made while recording: a `device->fn` entry point of the command
buffer, or `RecordBarrier` on a buffer or on a texture. -/
inductive Call
  | CmdCopyBuffer (srcBuffer dstBuffer : Nat) (regions : List VkBufferCopy)
  | CmdCopyBufferToImage (srcBuffer dstImage : Nat) (dstImageLayout : ImageLayout)
      (regions : List VkBufferImageCopy)
  | CmdCopyImageToBuffer (srcImage : Nat) (srcImageLayout : ImageLayout) (dstBuffer : Nat)
      (regions : List VkBufferImageCopy)
  | BufferRecordBarrier (buffer : Buffer) (currentUsage targetUsage : Nat)
  | TextureRecordBarrier (texture : Texture) (currentUsage targetUsage : Nat)
  | CmdBeginRenderPass (beginInfo : VkRenderPassBeginInfo) (contents : SubpassContents)
  | CmdSetLineWidth (lineWidth : FloatValue)
  | CmdSetDepthBounds (minDepthBounds maxDepthBounds : FloatValue)
  | CmdSetStencilReference (faceMask : StencilFace) (reference : Nat)
  | CmdSetViewport (firstViewport viewportCount : Nat) (viewports : List VkViewport)
  | CmdSetScissor (firstScissor scissorCount : Nat) (scissors : List VkRect2D)
  | CmdSetBlendConstants (r g b a : FloatValue)
  | CmdDraw (vertexCount instanceCount firstVertex firstInstance : Nat)
  | CmdDrawIndexed (indexCount instanceCount firstIndex vertexOffset firstInstance : Nat)
  | CmdEndRenderPass
  | CmdBindDescriptorSets (bindPoint : PipelineBindPoint) (layout firstSet : Nat)
      (descriptorSets : List Nat) (dynamicOffsets : List Nat)
  | CmdBindIndexBuffer (buffer offset : Nat) (indexType : IndexType)
  | CmdBindPipeline (bindPoint : PipelineBindPoint) (pipeline : Nat)
  | CmdBindVertexBuffers (firstBinding bindingCount : Nat) (buffers : List Nat)
      (offsets : List Nat)
  deriving DecidableEq, Repr

/-! ## `ComputeBufferImageCopyRegion` -/

/-- The function `ComputeBufferImageCopyRegion(rowPitch, bufferLocation, textureLocation)`.
`rowPitch` is a `uint32_t`; the quotient is the unsigned division of C++ and the
product wraps at `2 ^ 32`.  The origin `x`, `y`, `z` is stored in the signed fields
of `imageOffset`.  `none` stands for the division by a pixel size of zero. -/
def ComputeBufferImageCopyRegion (h : Headers) (rowPitch : Nat)
    (bufferLocation : BufferCopyLocation) (textureLocation : TextureCopyLocation) :
    Option VkBufferImageCopy :=
  let texture := textureLocation.texture
  if h.TextureFormatPixelSize texture.format = 0 then none
  else some
    { bufferOffset := bufferLocation.offset
      bufferRowLength := rowPitch / h.TextureFormatPixelSize texture.format
      bufferImageHeight := (rowPitch * textureLocation.height) % 2 ^ 32
      aspectMask := texture.aspectMask
      mipLevel := textureLocation.level
      baseArrayLayer := 0
      layerCount := 1
      imageOffsetX := toInt32 textureLocation.x
      imageOffsetY := toInt32 textureLocation.y
      imageOffsetZ := toInt32 textureLocation.z
      imageExtentWidth := textureLocation.width
      imageExtentHeight := textureLocation.height
      imageExtentDepth := textureLocation.depth }

/-! ## `CommandBuffer::RecordCommands` -/

/-- The state the replay loop reads and writes: the local `lastRenderPipeline`
(`none` is `nullptr`) and the tracked usage of every buffer and texture. -/
structure RecordState where
  lastRenderPipeline : Option RenderPipeline
  bufferUsage : Buffer → Nat
  textureUsage : Texture → Nat

/-- What a piece of the replay leaves behind: how it ended, the state, and the
calls it made, in order. -/
structure Outcome where
  status : Status
  state : RecordState
  calls : List Call

/-- The effect of `UpdateUsageInternal(usage)` on one texture. -/
def setTextureUsage (usage : Texture → Nat) (texture : Texture) (u : Nat) : Texture → Nat :=
  fun t => if t = texture then u else usage t

/-- The effect of `UpdateUsageInternal(usage)` on one buffer. -/
def setBufferUsage (usage : Buffer → Nat) (buffer : Buffer) (u : Nat) : Buffer → Nat :=
  fun b => if b = buffer then u else usage b

/-- The loop over the attachments at the head of `case Command::BeginRenderPass`,
run over the indices `indices` in this order from the texture usages `usage`:
an attachment whose usage has the `OutputAttachment` bit is skipped, any other
gets a barrier to `OutputAttachment` and that usage.  Returns the usages after
the loop and the barriers recorded. -/
def transitionAttachments (h : Headers) (framebuffer : Framebuffer) :
    List Nat → (Texture → Nat) → (Texture → Nat) × List Call
  | [], usage => (usage, [])
  | i :: rest, usage =>
    let attachment := (framebuffer.textureView i).texture
    if usage attachment &&& h.OutputAttachment ≠ 0 then
      transitionAttachments h framebuffer rest usage
    else
      let r := transitionAttachments h framebuffer rest
        (setTextureUsage usage attachment h.OutputAttachment)
      (r.1, Call.TextureRecordBarrier attachment (usage attachment) h.OutputAttachment :: r.2)

/-- The texture usages as they are when the attachment loop visits index `i`: after
its turns at the indices below `i`. -/
def usageWhenVisited (h : Headers) (framebuffer : Framebuffer) (usage : Texture → Nat)
    (i : Nat) : Texture → Nat :=
  (transitionAttachments h framebuffer (List.range i) usage).1

/-- The loop of `case Command::SetVertexBuffers` over the indices `indices`: for
each index `i` it reads `buffers[i]` and `offsets[i]` and stores the handle and the
offset at position `i` of the scratch arrays of `kMaxVertexInputs` entries.
Returns the pairs stored, or `none` when an index is outside the scratch arrays
or outside the arrays that follow the command. -/
def fillVertexBuffers (h : Headers) (buffers : List Buffer) (offsets : List Nat) :
    List Nat → Option (List (Nat × Nat))
  | [] => some []
  | i :: rest =>
    if h.kMaxVertexInputs ≤ i then none
    else
      match buffers[i]?, offsets[i]? with
      | some buffer, some offset =>
        (fillVertexBuffers h buffers offsets rest).map (fun filled =>
          (buffer.handle, offset) :: filled)
      | _, _ => none

/-- The `VkRenderPassBeginInfo` of `case Command::BeginRenderPass`. -/
def renderPassBeginInfo (renderPass : RenderPass) (framebuffer : Framebuffer) :
    VkRenderPassBeginInfo :=
  { renderPass := renderPass.handle
    framebuffer := framebuffer.handle
    renderArea :=
      { offsetX := 0, offsetY := 0
        extentWidth := framebuffer.width, extentHeight := framebuffer.height }
    clearValueCount := renderPass.attachmentCount
    pClearValues := framebuffer.clearValues }

/-- The calls of `case Command::BeginRenderPass` that follow its two `ASSERT`s:
`CmdBeginRenderPass`, then the dynamic state set "just in case". -/
def openRenderPass (renderPass : RenderPass) (framebuffer : Framebuffer) : List Call :=
  [ .CmdBeginRenderPass (renderPassBeginInfo renderPass framebuffer) .inline_,
    .CmdSetLineWidth .one,
    .CmdSetDepthBounds .zero .one,
    .CmdSetStencilReference .frontAndBack 0,
    .CmdSetViewport 0 1
      [{ x := .zero, y := .zero
         width := .ofUInt framebuffer.width, height := .ofUInt framebuffer.height
         minDepth := .zero, maxDepth := .one }],
    .CmdSetScissor 0 1
      [{ offsetX := 0, offsetY := 0
         extentWidth := framebuffer.width, extentHeight := framebuffer.height }] ]

/-- The body of the `switch` of `RecordCommands` for one decoded command, from the
state `st`. -/
def recordCommand (h : Headers) (st : RecordState) : Command → Outcome
  | .CopyBufferToBuffer src dst size =>
    ⟨.ok, st, [.CmdCopyBuffer src.buffer.handle dst.buffer.handle
      [{ srcOffset := src.offset, dstOffset := dst.offset, size := size }]]⟩
  | .CopyBufferToTexture src dst rowPitch =>
    match ComputeBufferImageCopyRegion h rowPitch src dst with
    | none => ⟨.divisionByZero, st, []⟩
    | some region =>
      ⟨.ok, st, [.CmdCopyBufferToImage src.buffer.handle dst.texture.handle
        .transferDstOptimal [region]]⟩
  | .CopyTextureToBuffer src dst rowPitch =>
    match ComputeBufferImageCopyRegion h rowPitch dst src with
    | none => ⟨.divisionByZero, st, []⟩
    | some region =>
      ⟨.ok, st, [.CmdCopyImageToBuffer src.texture.handle .general dst.buffer.handle
        [region]]⟩
  | .BeginRenderPass renderPass framebuffer =>
    let promoted := transitionAttachments h framebuffer
      (List.range renderPass.attachmentCount) st.textureUsage
    let st1 : RecordState := { st with textureUsage := promoted.1 }
    if renderPass.subpassCount ≠ 1 then ⟨.fatal, st1, promoted.2⟩
    else if ¬ renderPass.attachmentCount ≤ h.kMaxColorAttachments + 1 then
      ⟨.fatal, st1, promoted.2⟩
    else
      ⟨.ok, st1, promoted.2 ++ openRenderPass renderPass framebuffer⟩
  | .BeginRenderSubpass => ⟨.ok, st, [.CmdSetBlendConstants .zero .zero .zero .zero]⟩
  | .DrawArrays vertexCount instanceCount firstVertex firstInstance =>
    ⟨.ok, st, [.CmdDraw vertexCount instanceCount firstVertex firstInstance]⟩
  | .DrawElements indexCount instanceCount firstIndex firstInstance =>
    ⟨.ok, st, [.CmdDrawIndexed indexCount instanceCount firstIndex 0 firstInstance]⟩
  | .EndRenderPass => ⟨.ok, st, [.CmdEndRenderPass]⟩
  | .EndRenderSubpass => ⟨.ok, st, []⟩
  | .SetBindGroup index group =>
    let set := group.GetHandle
    match st.lastRenderPipeline with
    | none => ⟨.nullDereference, st, []⟩
    | some pipeline =>
      ⟨.ok, st, [.CmdBindDescriptorSets .graphics pipeline.layout.handle index [set] []]⟩
  | .SetBlendColor r g b a => ⟨.ok, st, [.CmdSetBlendConstants r g b a]⟩
  | .SetIndexBuffer buffer offset =>
    ⟨.ok, st, [.CmdBindIndexBuffer buffer.handle offset .uint16]⟩
  | .SetRenderPipeline pipeline =>
    ⟨.ok, { st with lastRenderPipeline := some pipeline },
      [.CmdBindPipeline .graphics pipeline.handle]⟩
  | .SetStencilReference reference =>
    ⟨.ok, st, [.CmdSetStencilReference .frontAndBack reference]⟩
  | .SetVertexBuffers startSlot count buffers offsets =>
    match fillVertexBuffers h buffers offsets (List.range count) with
    | none => ⟨.outOfBounds, st, []⟩
    | some filled =>
      ⟨.ok, st, [.CmdBindVertexBuffers startSlot count (filled.map Prod.fst)
        (filled.map Prod.snd)]⟩
  | .TransitionBufferUsage buffer usage =>
    ⟨.ok, { st with bufferUsage := setBufferUsage st.bufferUsage buffer usage },
      [.BufferRecordBarrier buffer (st.bufferUsage buffer) usage]⟩
  | .TransitionTextureUsage texture usage =>
    ⟨.ok, { st with textureUsage := setTextureUsage st.textureUsage texture usage },
      [.TextureRecordBarrier texture (st.textureUsage texture) usage]⟩
  | .Other _ => ⟨.fatal, st, []⟩

/-- The `while (mCommands.NextCommandId(&type))` loop from the state `st` over the
commands still in the stream: each command is replayed in turn, and the loop is
left at the first command that does not run to its `break`. -/
def recordLoop (h : Headers) : RecordState → List Command → Outcome
  | st, [] => ⟨.ok, st, []⟩
  | st, cmd :: rest =>
    let r := recordCommand h st cmd
    match r.status with
    | .ok =>
      let r2 := recordLoop h r.state rest
      ⟨r2.status, r2.state, r.calls ++ r2.calls⟩
    | _ => r

/-- The function `CommandBuffer::RecordCommands` on the command stream `commands`,
with the usages the buffers and textures have when it is called: `lastRenderPipeline`
starts as `nullptr`. -/
def RecordCommands (h : Headers) (bufferUsage : Buffer → Nat) (textureUsage : Texture → Nat)
    (commands : List Command) : Outcome :=
  recordLoop h
    { lastRenderPipeline := none, bufferUsage := bufferUsage, textureUsage := textureUsage }
    commands

/-! ## `BindGroup::BindGroup` and `BindGroup::~BindGroup` -/

/-- The constant `VK_SUCCESS`, the `VkResult` of a call that succeeded. -/
def VK_SUCCESS : Int := 0

/-- A `BufferView` with the values of `GetBuffer()`, `GetOffset()` and `GetSize()`. -/
structure BufferView where
  buffer : Buffer
  offset : Nat
  size : Nat
  deriving DecidableEq, Repr

/-- A `BindGroupLayout` of the Vulkan backend: the value of `GetHandle()`, the
`mask` and `types` of `GetBindingInfo()`, and what `ComputePoolSizes` returns (the
array and the count it stores in `numPoolSizes`). -/
structure BindGroupLayout where
  handle : Nat
  mask : Nat
  types : Nat → BindingType
  poolSizes : List (Nat × Nat)
  numPoolSizes : Nat

/-- What the constructor reads from its `BindGroupBuilder` through the base class:
`GetLayout()` and `GetBindingAsBufferView(i)`. -/
structure BindGroupBuilder where
  layout : BindGroupLayout
  bindingAsBufferView : Nat → BufferView

/-- The type `VkDescriptorPoolCreateInfo` (`sType` and `pNext` left out). -/
structure VkDescriptorPoolCreateInfo where
  flags : Nat
  maxSets : Nat
  poolSizeCount : Nat
  pPoolSizes : List (Nat × Nat)
  deriving DecidableEq, Repr

/-- The type `VkDescriptorSetAllocateInfo` (`sType` and `pNext` left out). -/
structure VkDescriptorSetAllocateInfo where
  descriptorPool : Nat
  descriptorSetCount : Nat
  pSetLayouts : List Nat
  deriving DecidableEq, Repr

/-- The type `VkDescriptorBufferInfo`. -/
structure VkDescriptorBufferInfo where
  buffer : Nat
  offset : Nat
  range : Nat
  deriving DecidableEq, Repr

/-- The type `VkWriteDescriptorSet` as the constructor fills it (`sType` and `pNext`
left out); `pBufferInfo` is the structure pointed to. -/
structure VkWriteDescriptorSet where
  dstSet : Nat
  dstBinding : Nat
  dstArrayElement : Nat
  descriptorCount : Nat
  descriptorType : Nat
  pBufferInfo : VkDescriptorBufferInfo
  deriving DecidableEq, Repr

/-- The two entry points of `device->fn` whose result the constructor reads: each
returns its `VkResult` and the handle it stores through its last argument. -/
structure DeviceFn where
  CreateDescriptorPool : VkDescriptorPoolCreateInfo → Int × Nat
  AllocateDescriptorSets : VkDescriptorSetAllocateInfo → Int × Nat

/-- One call made by the constructor or the destructor of a bind group: an entry
point of `device->fn` on descriptor pools and sets (the `VkDevice` argument is the
same in all of them and is left out), or `DeleteWhenUnused` of the fenced
deleter. -/
inductive DeviceCall
  | CreateDescriptorPool (createInfo : VkDescriptorPoolCreateInfo)
  | DestroyDescriptorPool (pool : Nat)
  | ResetDescriptorPool (pool : Nat)
  | AllocateDescriptorSets (allocateInfo : VkDescriptorSetAllocateInfo)
  | FreeDescriptorSets (pool : Nat) (sets : List Nat)
  | UpdateDescriptorSets (descriptorWriteCount : Nat) (writes : List VkWriteDescriptorSet)
      (descriptorCopyCount : Nat)
  | DeleteWhenUnused (pool : Nat)
  deriving DecidableEq, Repr

/-- Modelled from the spec: `IterateBitSet` (common/BitSetIterator.h) is not part of
the source tree.  Section 4.3: the occupied indices are visited "in ascending
order".  For a bit set of `size` bits with value `mask`, the indices of the bits
that are set, lowest first. -/
def IterateBitSet (size mask : Nat) : List Nat :=
  (List.range size).filter (fun i => mask.testBit i)

/-- The `VkWriteDescriptorSet` the constructor fills for the binding `bindingIndex`
of a uniform or storage buffer, with its `VkDescriptorBufferInfo`. -/
def descriptorWrite (h : Headers) (builder : BindGroupBuilder) (mHandle bindingIndex : Nat) :
    VkWriteDescriptorSet :=
  let view := builder.bindingAsBufferView bindingIndex
  { dstSet := mHandle
    dstBinding := bindingIndex
    dstArrayElement := 0
    descriptorCount := 1
    descriptorType := h.VulkanDescriptorType (builder.layout.types bindingIndex)
    pBufferInfo :=
      { buffer := view.buffer.handle, offset := view.offset, range := view.size } }

/-- The loop of the constructor over the occupied indices `indices`, with the
writes filled so far in `writes` (`numWrites` is their number): the next write goes
to position `numWrites` of the scratch arrays of `kMaxBindingsPerGroup` entries; a
uniform or storage buffer binding is resolved through its view, any other kind
reaches `UNREACHABLE()`. -/
def fillWrites (h : Headers) (builder : BindGroupBuilder) (mHandle : Nat) :
    List Nat → List VkWriteDescriptorSet → Status × List VkWriteDescriptorSet
  | [], writes => (.ok, writes)
  | bindingIndex :: rest, writes =>
    if h.kMaxBindingsPerGroup ≤ writes.length then (.outOfBounds, writes)
    else
      match builder.layout.types bindingIndex with
      | .UniformBuffer | .StorageBuffer =>
        fillWrites h builder mHandle rest
          (writes ++ [descriptorWrite h builder mHandle bindingIndex])
      | _ => (.fatal, writes)

/-- What the constructor leaves behind: how it ended, the fields of the object, and
the calls it made, in order. -/
structure Constructed where
  status : Status
  self : BindGroup
  calls : List DeviceCall

/-- The `VkDescriptorPoolCreateInfo` the constructor builds. -/
def poolCreateInfo (builder : BindGroupBuilder) : VkDescriptorPoolCreateInfo :=
  { flags := 0
    maxSets := 1
    poolSizeCount := builder.layout.numPoolSizes
    pPoolSizes := builder.layout.poolSizes }

/-- The `VkDescriptorSetAllocateInfo` the constructor builds for the pool `mPool`. -/
def setAllocateInfo (builder : BindGroupBuilder) (mPool : Nat) : VkDescriptorSetAllocateInfo :=
  { descriptorPool := mPool
    descriptorSetCount := 1
    pSetLayouts := [builder.layout.handle] }

/-- The function `BindGroup::BindGroup(builder)`: creates the pool, allocates the
set, fills one write per occupied index of the layout and passes them to
`UpdateDescriptorSets`.  A `VkResult` other than `VK_SUCCESS` reaches
`ASSERT(false)`; `mHandle` is shown as `VK_NULL_HANDLE` as long as
`AllocateDescriptorSets` has not been called. -/
def BindGroup.constructor (h : Headers) (fn : DeviceFn) (builder : BindGroupBuilder) :
    Constructed :=
  let created := fn.CreateDescriptorPool (poolCreateInfo builder)
  let mPool := created.2
  if created.1 ≠ VK_SUCCESS then
    ⟨.fatal, ⟨mPool, VK_NULL_HANDLE⟩, [.CreateDescriptorPool (poolCreateInfo builder)]⟩
  else
    let allocated := fn.AllocateDescriptorSets (setAllocateInfo builder mPool)
    let mHandle := allocated.2
    if allocated.1 ≠ VK_SUCCESS then
      ⟨.fatal, ⟨mPool, mHandle⟩,
        [.CreateDescriptorPool (poolCreateInfo builder),
         .AllocateDescriptorSets (setAllocateInfo builder mPool)]⟩
    else
      let filled := fillWrites h builder mHandle
        (IterateBitSet h.kMaxBindingsPerGroup builder.layout.mask) []
      match filled.1 with
      | .ok =>
        ⟨.ok, ⟨mPool, mHandle⟩,
          [.CreateDescriptorPool (poolCreateInfo builder),
           .AllocateDescriptorSets (setAllocateInfo builder mPool),
           .UpdateDescriptorSets filled.2.length filled.2 0]⟩
      | status =>
        ⟨status, ⟨mPool, mHandle⟩,
          [.CreateDescriptorPool (poolCreateInfo builder),
           .AllocateDescriptorSets (setAllocateInfo builder mPool)]⟩

/-- The function `BindGroup::~BindGroup()`: returns the fields after the destructor
body and the calls it made. -/
def BindGroup.destructor (self : BindGroup) : BindGroup × List DeviceCall :=
  let cleared : BindGroup := { self with mHandle := VK_NULL_HANDLE }
  if cleared.mPool ≠ VK_NULL_HANDLE then
    ({ cleared with mPool := VK_NULL_HANDLE }, [.DeleteWhenUnused cleared.mPool])
  else
    (cleared, [])

/-! ## The encoded command stream -/

/-- Modelled from the spec: the encoded command stream and its `CommandIterator`
(`NextCommandId`, `NextCommand`, `NextData`; backend/CommandAllocator.h) are not
part of the source tree.  Section 3: the stream is an "ordered, immutable,
heterogeneous sequence of tagged command records; each tag determines a
fixed-layout payload (plus, for variable-arity commands, a count followed by
parallel fixed-stride arrays)".  A cell of the stream is a command id with its
fixed-layout record, or one element of an array recorded after a record.  The
record of `SetVertexBuffers` holds `startSlot` and `count` only: the two lists of
the constructor are not part of the record and are not read from it. -/
inductive Cell
  | command (cmd : Command)
  | bufferRef (buffer : Buffer)
  | uint32 (value : Nat)

/-- Modelled from the spec: `NextData<Ref<BufferBase>>(count)` of the
`CommandIterator`, which is not part of the source tree.  Section 4.1: the arrays
are "decoded from a count followed by two parallel fixed-stride arrays".  Returns
the `count` buffer references at the cursor, or `none` when fewer were recorded
there. -/
def NextDataBuffers : Nat → List Cell → Option (List Buffer)
  | 0, _ => some []
  | count + 1, .bufferRef buffer :: cells =>
    (NextDataBuffers count cells).map (fun buffers => buffer :: buffers)
  | _ + 1, _ => none

/-- Modelled from the spec: `NextData<uint32_t>(count)` of the `CommandIterator`,
which is not part of the source tree.  Returns the `count` values at the cursor, or
`none` when fewer were recorded there. -/
def NextDataUInt32 : Nat → List Cell → Option (List Nat)
  | 0, _ => some []
  | count + 1, .uint32 value :: cells =>
    (NextDataUInt32 count cells).map (fun values => value :: values)
  | _ + 1, _ => none

/-- The reads a `case` of `RecordCommands` makes from the stream after its command
id, with the cursor on the cells `data` that follow the record `cmd`: the command
as the body of the `case` sees it, and the number of array cells the cursor has
advanced over.  `SetVertexBuffers` reads `count` buffer references, then `count`
offsets; every other command reads its record only. -/
def decodeAt : Command → List Cell → Option (Command × Nat)
  | .SetVertexBuffers startSlot count _ _, data =>
    match NextDataBuffers count data, NextDataUInt32 count (data.drop count) with
    | some buffers, some offsets =>
      some (.SetVertexBuffers startSlot count buffers offsets, count + count)
    | _, _ => none
  | cmd, _ => some (cmd, 0)

/-- The `while (mCommands.NextCommandId(&type))` loop on the encoded stream, with
the cursor at the head of `cells`: the loop ends when the stream is exhausted;
otherwise the command at the cursor is decoded and replayed and the cursor moves
to the cell after its record and arrays.  A cursor that is not on a command id, or
arrays shorter than the count, are reads outside what was recorded. -/
def recordStream (h : Headers) (st : RecordState) (cells : List Cell) : Outcome :=
  match cells with
  | [] => ⟨.ok, st, []⟩
  | .command cmd :: data =>
    match decodeAt cmd data with
    | none => ⟨.outOfBounds, st, []⟩
    | some (decoded, advance) =>
      let r := recordCommand h st decoded
      match r.status with
      | .ok =>
        let r2 := recordStream h r.state (data.drop advance)
        ⟨r2.status, r2.state, r.calls ++ r2.calls⟩
      | _ => r
  | _ :: _ => ⟨.outOfBounds, st, []⟩
termination_by cells.length
decreasing_by
  simp only [List.length_cons, List.length_drop]
  omega

/-- Modelled from the spec: the builder that records the stream
(`CommandBufferBuilder`) is not part of the source tree.  Section 3: a
variable-arity command is recorded as its record with "a count followed by
parallel fixed-stride arrays".  What the builder records for one command: its id
and record, followed for `SetVertexBuffers` by the array of buffers and the array
of offsets. -/
def encodeCommand : Command → List Cell
  | .SetVertexBuffers startSlot count buffers offsets =>
    .command (.SetVertexBuffers startSlot count [] []) ::
      (buffers.map Cell.bufferRef ++ offsets.map Cell.uint32)
  | cmd => [.command cmd]

/-- A command is recorded with arrays of the length its record announces: for
`SetVertexBuffers`, `count` buffers and `count` offsets. -/
def Command.arraysMatchCount : Command → Prop
  | .SetVertexBuffers _ count buffers offsets => buffers.length = count ∧ offsets.length = count
  | _ => True

/-- The stream the builder records for a list of commands. -/
def encodeStream : List Command → List Cell
  | [] => []
  | cmd :: rest => encodeCommand cmd ++ encodeStream rest

/-! ## Sample values -/

/-- A set of header values: four colour attachments, sixteen vertex inputs and
bindings per group, `OutputAttachment` as bit 4, four bytes per texel. -/
def sampleHeaders : Headers :=
  { kMaxColorAttachments := 4
    kMaxVertexInputs := 16
    kMaxBindingsPerGroup := 16
    OutputAttachment := 16
    TextureFormatPixelSize := fun _ => 4
    VulkanDescriptorType := fun _ => 7 }

/-- A texture, with identity 1. -/
def sampleTexture : Texture := { id := 1, handle := 41, format := 0, aspectMask := 1 }

/-- A framebuffer of 640 by 480 whose attachments are all `sampleTexture`. -/
def sampleFramebuffer : Framebuffer :=
  { handle := 51, width := 640, height := 480
    textureView := fun _ => ⟨sampleTexture⟩, clearValues := [0] }

/-- A render pass with one attachment and one subpass. -/
def sampleRenderPass : RenderPass := { handle := 61, attachmentCount := 1, subpassCount := 1 }

/-- A replay state with no pipeline bound, buffers at usage 1 and textures at usage
4 (a usage without the bit 16). -/
def sampleState : RecordState :=
  { lastRenderPipeline := none, bufferUsage := fun _ => 1, textureUsage := fun _ => 4 }

/-- A layout occupying the indices 0 and 2: a uniform buffer at 0, a storage buffer
at 2 (and a sampler declared at the unoccupied index 1). -/
def sampleLayout : BindGroupLayout :=
  { handle := 71
    mask := 5
    types := fun i => if i = 0 then .UniformBuffer else if i = 2 then .StorageBuffer
      else .Sampler
    poolSizes := [(6, 1), (7, 1)]
    numPoolSizes := 2 }

/-- A builder for `sampleLayout`: the view bound at index `i` is on the buffer with
handle `100 + i`, at offset `16 * i`, of size 64. -/
def sampleBuilder : BindGroupBuilder :=
  { layout := sampleLayout
    bindingAsBufferView := fun i => ⟨⟨i, 100 + i⟩, 16 * i, 64⟩ }

/-- Native entry points that succeed: the pool created has handle 81, the set
allocated has handle 91. -/
def sampleDeviceFn : DeviceFn :=
  { CreateDescriptorPool := fun _ => (VK_SUCCESS, 81)
    AllocateDescriptorSets := fun _ => (VK_SUCCESS, 91) }

/-- Whether a call is a `CmdBeginRenderPass` call. -/
def Call.isBeginRenderPass : Call → Bool
  | .CmdBeginRenderPass _ _ => true
  | _ => false

/-! ## The replay loop -/

theorem recordLoop_nil (h : Headers) (st : RecordState) :
    recordLoop h st [] = ⟨.ok, st, []⟩ := rfl

theorem recordLoop_cons_ok (h : Headers) (st : RecordState) (cmd : Command)
    (rest : List Command) (hok : (recordCommand h st cmd).status = .ok) :
    recordLoop h st (cmd :: rest) =
      ⟨(recordLoop h (recordCommand h st cmd).state rest).status,
       (recordLoop h (recordCommand h st cmd).state rest).state,
       (recordCommand h st cmd).calls ++
         (recordLoop h (recordCommand h st cmd).state rest).calls⟩ := by
  simp [recordLoop, hok]

theorem recordLoop_cons_stop (h : Headers) (st : RecordState) (cmd : Command)
    (rest : List Command) (hstop : (recordCommand h st cmd).status ≠ .ok) :
    recordLoop h st (cmd :: rest) = recordCommand h st cmd := by
  unfold recordLoop
  cases hs : (recordCommand h st cmd).status <;> simp_all

/-- Replaying `front ++ back` when the replay of `front` runs to its end: the
replay of `back` continues from the state `front` leaves. -/
theorem recordLoop_append_ok (h : Headers) (front back : List Command) :
    ∀ st : RecordState, (recordLoop h st front).status = .ok →
      recordLoop h st (front ++ back) =
        ⟨(recordLoop h (recordLoop h st front).state back).status,
         (recordLoop h (recordLoop h st front).state back).state,
         (recordLoop h st front).calls ++
           (recordLoop h (recordLoop h st front).state back).calls⟩ := by
  induction front with
  | nil => intro st _; simp [recordLoop_nil]
  | cons cmd rest ih =>
    intro st hok
    by_cases hc : (recordCommand h st cmd).status = .ok
    · rw [recordLoop_cons_ok h st cmd rest hc] at hok ⊢
      rw [List.cons_append, recordLoop_cons_ok h st cmd (rest ++ back) hc]
      simp only at hok
      rw [ih _ hok]
      simp [List.append_assoc]
    · rw [recordLoop_cons_stop h st cmd rest hc] at hok
      exact absurd hok hc

/-- Replaying `front ++ back` when the replay of `front` stops early: nothing of
`back` is replayed. -/
theorem recordLoop_append_stop (h : Headers) (front back : List Command) :
    ∀ st : RecordState, (recordLoop h st front).status ≠ .ok →
      recordLoop h st (front ++ back) = recordLoop h st front := by
  induction front with
  | nil => intro st hstop; simp [recordLoop_nil] at hstop
  | cons cmd rest ih =>
    intro st hstop
    by_cases hc : (recordCommand h st cmd).status = .ok
    · rw [recordLoop_cons_ok h st cmd rest hc] at hstop ⊢
      rw [List.cons_append, recordLoop_cons_ok h st cmd (rest ++ back) hc]
      simp only at hstop
      rw [ih _ hstop]
    · rw [recordLoop_cons_stop h st cmd rest hc, List.cons_append,
        recordLoop_cons_stop h st cmd (rest ++ back) hc]

/-- A command other than `SetRenderPipeline` leaves `lastRenderPipeline` as it
was. -/
theorem recordCommand_lastRenderPipeline (h : Headers) (st : RecordState) (cmd : Command)
    (hcmd : ∀ Q, cmd ≠ .SetRenderPipeline Q) :
    (recordCommand h st cmd).state.lastRenderPipeline = st.lastRenderPipeline := by
  cases cmd <;> simp only [recordCommand] <;> try rfl
  · split <;> rfl
  · split <;> rfl
  · split_ifs <;> rfl
  · split <;> rfl
  · exact absurd rfl (hcmd _)
  · split <;> rfl

theorem recordLoop_lastRenderPipeline (h : Headers) (cmds : List Command)
    (hcmds : ∀ c ∈ cmds, ∀ Q, c ≠ .SetRenderPipeline Q) :
    ∀ st : RecordState,
      (recordLoop h st cmds).state.lastRenderPipeline = st.lastRenderPipeline := by
  induction cmds with
  | nil => intro st; rfl
  | cons cmd rest ih =>
    intro st
    have hcmd := hcmds cmd (List.mem_cons_self _ _)
    have hrest : ∀ c ∈ rest, ∀ Q, c ≠ .SetRenderPipeline Q :=
      fun c hc => hcmds c (List.mem_cons_of_mem _ hc)
    by_cases hc : (recordCommand h st cmd).status = .ok
    · rw [recordLoop_cons_ok h st cmd rest hc]
      simp only
      rw [ih hrest, recordCommand_lastRenderPipeline h st cmd hcmd]
    · rw [recordLoop_cons_stop h st cmd rest hc,
        recordCommand_lastRenderPipeline h st cmd hcmd]

/-! ## Bind pipeline, bind group, bind vertex buffers, draw -/

/-- C1: for every render pipeline `P`, bind group `G` and buffer `B`, with room for
one vertex input, `RecordCommands` on
`[SetRenderPipeline(P), SetBindGroup(0,G), SetVertexBuffers(0,[B],[0]), DrawArrays(3,1,0,0)]`
runs to its end and makes exactly four calls, in this order: bind pipeline `P`
(graphics), bind the descriptor set of `G` as set 0 with the layout of `P` and no
dynamic offsets, bind the vertex buffer `B` at slot 0 with offset 0, draw 3
vertices, 1 instance, from vertex 0 and instance 0.  No usage changes. -/
theorem RecordCommands_end_to_end (h : Headers) (hslots : 1 ≤ h.kMaxVertexInputs)
    (bufferUsage : Buffer → Nat) (textureUsage : Texture → Nat)
    (P : RenderPipeline) (G : BindGroup) (B : Buffer) :
    (RecordCommands h bufferUsage textureUsage
        [.SetRenderPipeline P, .SetBindGroup 0 G, .SetVertexBuffers 0 1 [B] [0],
         .DrawArrays 3 1 0 0]).calls =
      [ .CmdBindPipeline .graphics P.handle,
        .CmdBindDescriptorSets .graphics P.layout.handle 0 [G.GetHandle] [],
        .CmdBindVertexBuffers 0 1 [B.handle] [0],
        .CmdDraw 3 1 0 0 ] ∧
    (RecordCommands h bufferUsage textureUsage
        [.SetRenderPipeline P, .SetBindGroup 0 G, .SetVertexBuffers 0 1 [B] [0],
         .DrawArrays 3 1 0 0]).status = .ok ∧
    (RecordCommands h bufferUsage textureUsage
        [.SetRenderPipeline P, .SetBindGroup 0 G, .SetVertexBuffers 0 1 [B] [0],
         .DrawArrays 3 1 0 0]).state.bufferUsage = bufferUsage ∧
    (RecordCommands h bufferUsage textureUsage
        [.SetRenderPipeline P, .SetBindGroup 0 G, .SetVertexBuffers 0 1 [B] [0],
         .DrawArrays 3 1 0 0]).state.textureUsage = textureUsage := by
  have hfill : fillVertexBuffers h [B] [0] (List.range 1) = some [(B.handle, 0)] := by
    have hnot : ¬ h.kMaxVertexInputs ≤ 0 := by omega
    simp [List.range_succ, fillVertexBuffers, hnot]
  simp [RecordCommands, recordLoop, recordCommand, hfill]

theorem RecordCommands_end_to_end_witness :
    (RecordCommands sampleHeaders (fun _ => 0) (fun _ => 0)
        [.SetRenderPipeline ⟨11, ⟨12⟩⟩, .SetBindGroup 0 ⟨21, 22⟩,
         .SetVertexBuffers 0 1 [⟨31, 32⟩] [0], .DrawArrays 3 1 0 0]).calls =
      [ .CmdBindPipeline .graphics 11,
        .CmdBindDescriptorSets .graphics 12 0 [22] [],
        .CmdBindVertexBuffers 0 1 [32] [0],
        .CmdDraw 3 1 0 0 ] :=
  (RecordCommands_end_to_end sampleHeaders (by decide) (fun _ => 0) (fun _ => 0)
    ⟨11, ⟨12⟩⟩ ⟨21, 22⟩ ⟨31, 32⟩).1

/-- The replay loop at a `SetBindGroup` that follows `SetRenderPipeline P` with no
other `SetRenderPipeline` in between, from any state. -/
theorem recordLoop_SetBindGroup (h : Headers) (st0 : RecordState)
    (before between after : List Command) (P : RenderPipeline) (index : Nat)
    (group : BindGroup)
    (hbetween : ∀ c ∈ between, ∀ Q, c ≠ Command.SetRenderPipeline Q)
    (hreach : (recordLoop h st0 (before ++ .SetRenderPipeline P :: between)).status = .ok) :
    recordLoop h st0
        ((before ++ .SetRenderPipeline P :: between) ++ .SetBindGroup index group :: after) =
      ⟨(recordLoop h (recordLoop h st0 (before ++ .SetRenderPipeline P :: between)).state
          after).status,
       (recordLoop h (recordLoop h st0 (before ++ .SetRenderPipeline P :: between)).state
          after).state,
       (recordLoop h st0 (before ++ .SetRenderPipeline P :: between)).calls ++
        .CmdBindDescriptorSets .graphics P.layout.handle index [group.GetHandle] [] ::
        (recordLoop h (recordLoop h st0 (before ++ .SetRenderPipeline P :: between)).state
          after).calls⟩ := by
  have hlast :
      (recordLoop h st0 (before ++ .SetRenderPipeline P :: between)).state.lastRenderPipeline
        = some P := by
    by_cases hb : (recordLoop h st0 before).status = .ok
    · rw [recordLoop_append_ok h before _ st0 hb]
      simp only
      have hP : (recordCommand h (recordLoop h st0 before).state
          (.SetRenderPipeline P)).status = .ok := rfl
      rw [recordLoop_cons_ok h _ _ between hP]
      simp only
      rw [recordLoop_lastRenderPipeline h between hbetween]
      rfl
    · rw [recordLoop_append_stop h before _ st0 hb] at hreach
      exact absurd hreach hb
  rw [recordLoop_append_ok h _ _ st0 hreach]
  simp [recordLoop, recordCommand, hlast]

/-- C2: in a stream `before ++ [SetRenderPipeline(P)] ++ between ++
[SetBindGroup(index, group)] ++ after` where `between` holds no `SetRenderPipeline`
(so `P` is the nearest preceding one), when the replay reaches the `SetBindGroup`
it makes for it exactly one call: `CmdBindDescriptorSets` on the graphics bind
point with the layout of `P`, first set `index`, the one descriptor set of `group`
and no dynamic offsets.  The replay starts with no pipeline bound, so only
commands of this stream count. -/
theorem SetBindGroup_uses_nearest_pipeline (h : Headers)
    (bufferUsage : Buffer → Nat) (textureUsage : Texture → Nat)
    (before between after : List Command) (P : RenderPipeline) (index : Nat)
    (group : BindGroup)
    (hbetween : ∀ c ∈ between, ∀ Q, c ≠ Command.SetRenderPipeline Q)
    (hreach : (RecordCommands h bufferUsage textureUsage
      (before ++ .SetRenderPipeline P :: between)).status = .ok) :
    (RecordCommands h bufferUsage textureUsage
        ((before ++ .SetRenderPipeline P :: between) ++ [.SetBindGroup index group])).status
      = .ok ∧
    (RecordCommands h bufferUsage textureUsage
        ((before ++ .SetRenderPipeline P :: between) ++ [.SetBindGroup index group])).calls
      = (RecordCommands h bufferUsage textureUsage
          (before ++ .SetRenderPipeline P :: between)).calls ++
        [.CmdBindDescriptorSets .graphics P.layout.handle index [group.GetHandle] []] ∧
    ∃ later : List Call,
      (RecordCommands h bufferUsage textureUsage
        ((before ++ .SetRenderPipeline P :: between) ++
          .SetBindGroup index group :: after)).calls
      = (RecordCommands h bufferUsage textureUsage
          (before ++ .SetRenderPipeline P :: between)).calls ++
        .CmdBindDescriptorSets .graphics P.layout.handle index [group.GetHandle] [] ::
          later := by
  unfold RecordCommands at hreach ⊢
  refine ⟨?_, ?_, ?_⟩
  · rw [recordLoop_SetBindGroup h _ before between [] P index group hbetween hreach]
    rfl
  · rw [recordLoop_SetBindGroup h _ before between [] P index group hbetween hreach]
    simp [recordLoop_nil]
  · rw [recordLoop_SetBindGroup h _ before between after P index group hbetween hreach]
    exact ⟨_, rfl⟩

theorem SetBindGroup_uses_nearest_pipeline_witness :
    (RecordCommands sampleHeaders (fun _ => 0) (fun _ => 0)
        (([.SetRenderPipeline ⟨11, ⟨12⟩⟩] ++ .SetRenderPipeline ⟨13, ⟨14⟩⟩ ::
            [.DrawArrays 3 1 0 0]) ++ [.SetBindGroup 2 ⟨21, 22⟩])).calls
      = (RecordCommands sampleHeaders (fun _ => 0) (fun _ => 0)
          ([.SetRenderPipeline ⟨11, ⟨12⟩⟩] ++ .SetRenderPipeline ⟨13, ⟨14⟩⟩ ::
            [.DrawArrays 3 1 0 0])).calls ++
        [.CmdBindDescriptorSets .graphics 14 2 [22] []] :=
  (SetBindGroup_uses_nearest_pipeline sampleHeaders (fun _ => 0) (fun _ => 0)
    [.SetRenderPipeline ⟨11, ⟨12⟩⟩] [.DrawArrays 3 1 0 0] [] ⟨13, ⟨14⟩⟩ 2 ⟨21, 22⟩
    (by simp) (by decide)).2.1

/-- The attachment loop records texture barriers only. -/
theorem transitionAttachments_calls (h : Headers) (framebuffer : Framebuffer)
    (indices : List Nat) :
    ∀ usage : Texture → Nat, ∀ c ∈ (transitionAttachments h framebuffer indices usage).2,
      ∃ t a b, c = Call.TextureRecordBarrier t a b := by
  induction indices with
  | nil => intro usage c hc; simp [transitionAttachments] at hc
  | cons i more ih =>
    intro usage c hc
    simp only [transitionAttachments] at hc
    split_ifs at hc
    · exact ih _ c hc
    · rcases List.mem_cons.mp hc with hc | hc
      · exact ⟨_, _, _, hc⟩
      · exact ih _ c hc

/-- The body of `case Command::BeginRenderPass` when both `ASSERT`s hold. -/
theorem recordCommand_BeginRenderPass_ok (h : Headers) (st : RecordState)
    (renderPass : RenderPass) (framebuffer : Framebuffer)
    (hsub : renderPass.subpassCount = 1)
    (hcount : renderPass.attachmentCount ≤ h.kMaxColorAttachments + 1) :
    recordCommand h st (.BeginRenderPass renderPass framebuffer) =
      ⟨.ok,
       { st with textureUsage := (transitionAttachments h framebuffer
          (List.range renderPass.attachmentCount) st.textureUsage).1 },
       (transitionAttachments h framebuffer
          (List.range renderPass.attachmentCount) st.textureUsage).2 ++
        openRenderPass renderPass framebuffer⟩ := by
  simp [recordCommand, hsub, hcount]

/-- The body of `case Command::BeginRenderPass` when one of the `ASSERT`s fails. -/
theorem recordCommand_BeginRenderPass_fatal (h : Headers) (st : RecordState)
    (renderPass : RenderPass) (framebuffer : Framebuffer)
    (hbad : renderPass.subpassCount ≠ 1 ∨
      h.kMaxColorAttachments + 1 < renderPass.attachmentCount) :
    recordCommand h st (.BeginRenderPass renderPass framebuffer) =
      ⟨.fatal,
       { st with textureUsage := (transitionAttachments h framebuffer
          (List.range renderPass.attachmentCount) st.textureUsage).1 },
       (transitionAttachments h framebuffer
          (List.range renderPass.attachmentCount) st.textureUsage).2⟩ := by
  simp only [recordCommand]
  by_cases hsub : renderPass.subpassCount = 1
  · have hcount : ¬ renderPass.attachmentCount ≤ h.kMaxColorAttachments + 1 := by
      rcases hbad with hb | hb
      · exact absurd hsub hb
      · omega
    simp [hsub, hcount]
  · simp [hsub]

/-- Without a `SetRenderPipeline` in the stream, no command of it gets a
`CmdBindDescriptorSets` call. -/
theorem recordLoop_no_bind_without_pipeline (h : Headers) (cmds : List Command)
    (hcmds : ∀ c ∈ cmds, ∀ Q, c ≠ Command.SetRenderPipeline Q) :
    ∀ st : RecordState, st.lastRenderPipeline = none →
      ∀ call ∈ (recordLoop h st cmds).calls, ∀ bindPoint layout firstSet sets offsets,
        call ≠ Call.CmdBindDescriptorSets bindPoint layout firstSet sets offsets := by
  induction cmds with
  | nil => intro st _ call hcall; simp [recordLoop_nil] at hcall
  | cons cmd rest ih =>
    intro st hst call hcall
    have hcmd := hcmds cmd (List.mem_cons_self _ _)
    have hrest : ∀ c ∈ rest, ∀ Q, c ≠ Command.SetRenderPipeline Q :=
      fun c hc => hcmds c (List.mem_cons_of_mem _ hc)
    have hown : ∀ call ∈ (recordCommand h st cmd).calls,
        ∀ bindPoint layout firstSet sets offsets,
          call ≠ Call.CmdBindDescriptorSets bindPoint layout firstSet sets offsets := by
      intro call hcall
      cases cmd with
      | BeginRenderPass renderPass framebuffer =>
        by_cases hgood : renderPass.subpassCount = 1 ∧
            renderPass.attachmentCount ≤ h.kMaxColorAttachments + 1
        · rw [recordCommand_BeginRenderPass_ok h st _ _ hgood.1 hgood.2] at hcall
          rcases List.mem_append.mp hcall with hc | hc
          · obtain ⟨t, a, b, rfl⟩ := transitionAttachments_calls h _ _ _ call hc
            simp
          · simp [openRenderPass] at hc
            rcases hc with rfl | rfl | rfl | rfl | rfl | rfl <;> simp
        · have hbad : renderPass.subpassCount ≠ 1 ∨
              h.kMaxColorAttachments + 1 < renderPass.attachmentCount := by
            by_cases hsub : renderPass.subpassCount = 1
            · right
              have := fun hle => hgood ⟨hsub, hle⟩
              omega
            · exact Or.inl hsub
          rw [recordCommand_BeginRenderPass_fatal h st _ _ hbad] at hcall
          obtain ⟨t, a, b, rfl⟩ := transitionAttachments_calls h _ _ _ call hcall
          simp
      | SetRenderPipeline pipeline => exact absurd rfl (hcmd pipeline)
      | CopyBufferToTexture src dst rowPitch =>
        simp only [recordCommand] at hcall
        split at hcall <;> simp at hcall
        subst hcall; simp
      | CopyTextureToBuffer src dst rowPitch =>
        simp only [recordCommand] at hcall
        split at hcall <;> simp at hcall
        subst hcall; simp
      | SetVertexBuffers startSlot count buffers offsets =>
        simp only [recordCommand] at hcall
        split at hcall <;> simp at hcall
        subst hcall; simp
      | SetBindGroup index group => simp [recordCommand, hst] at hcall
      | EndRenderSubpass => simp [recordCommand] at hcall
      | Other id => simp [recordCommand] at hcall
      | _ => simp [recordCommand] at hcall; subst hcall; simp
    by_cases hc : (recordCommand h st cmd).status = .ok
    · rw [recordLoop_cons_ok h st cmd rest hc] at hcall
      rcases List.mem_append.mp hcall with hmem | hmem
      · exact hown call hmem
      · refine ih hrest _ ?_ call hmem
        rw [recordCommand_lastRenderPipeline h st cmd hcmd, hst]
    · rw [recordLoop_cons_stop h st cmd rest hc] at hcall
      exact hown call hcall

/-- C3, as stated, fails: on the stream `[SetBindGroup(0, G)]` the replay ends at
the dereference of the null `lastRenderPipeline`, which is not the outcome of a
failed `ASSERT` or of `UNREACHABLE()`. -/
theorem SetBindGroup_without_pipeline_not_fatal :
    (RecordCommands sampleHeaders (fun _ => 0) (fun _ => 0)
        [.SetBindGroup 0 ⟨21, 22⟩]).status = .nullDereference ∧
    ¬ (RecordCommands sampleHeaders (fun _ => 0) (fun _ => 0)
        [.SetBindGroup 0 ⟨21, 22⟩]).status = .fatal := by
  decide

/-- C3, amended: in a stream `before ++ [SetBindGroup(index, group)] ++ after`
where `before` holds no `SetRenderPipeline`, the replay does not run to its end
and replays nothing of `after`: its calls are those of `before`, none of them a
`CmdBindDescriptorSets`; when `before` itself runs to its end, the replay ends at
the `SetBindGroup` with the dereference of the null `lastRenderPipeline`. -/
theorem SetBindGroup_without_pipeline (h : Headers)
    (bufferUsage : Buffer → Nat) (textureUsage : Texture → Nat)
    (before after : List Command) (index : Nat) (group : BindGroup)
    (hbefore : ∀ c ∈ before, ∀ Q, c ≠ Command.SetRenderPipeline Q) :
    (RecordCommands h bufferUsage textureUsage
        (before ++ .SetBindGroup index group :: after)).status ≠ .ok ∧
    (RecordCommands h bufferUsage textureUsage
        (before ++ .SetBindGroup index group :: after)).calls =
      (RecordCommands h bufferUsage textureUsage before).calls ∧
    (∀ call ∈ (RecordCommands h bufferUsage textureUsage
        (before ++ .SetBindGroup index group :: after)).calls,
      ∀ bindPoint layout firstSet sets offsets,
        call ≠ Call.CmdBindDescriptorSets bindPoint layout firstSet sets offsets) ∧
    ((RecordCommands h bufferUsage textureUsage before).status = .ok →
      (RecordCommands h bufferUsage textureUsage
        (before ++ .SetBindGroup index group :: after)).status = .nullDereference) := by
  unfold RecordCommands
  have hnone : (recordLoop h ⟨none, bufferUsage, textureUsage⟩ before).state.lastRenderPipeline
      = none := recordLoop_lastRenderPipeline h before hbefore _
  have hstep : ∀ st : RecordState, st.lastRenderPipeline = none →
      recordLoop h st (.SetBindGroup index group :: after) = ⟨.nullDereference, st, []⟩ := by
    intro st hst
    simp [recordLoop, recordCommand, hst]
  have hcalls : (recordLoop h ⟨none, bufferUsage, textureUsage⟩
        (before ++ .SetBindGroup index group :: after)).calls =
      (recordLoop h ⟨none, bufferUsage, textureUsage⟩ before).calls := by
    by_cases hb : (recordLoop h ⟨none, bufferUsage, textureUsage⟩ before).status = .ok
    · rw [recordLoop_append_ok h before _ _ hb, hstep _ hnone]
      simp
    · rw [recordLoop_append_stop h before _ _ hb]
  refine ⟨?_, hcalls, ?_, ?_⟩
  · by_cases hb : (recordLoop h ⟨none, bufferUsage, textureUsage⟩ before).status = .ok
    · rw [recordLoop_append_ok h before _ _ hb, hstep _ hnone]
      simp
    · rw [recordLoop_append_stop h before _ _ hb]
      exact hb
  · rw [hcalls]
    exact recordLoop_no_bind_without_pipeline h before hbefore _ rfl
  · intro hb
    rw [recordLoop_append_ok h before _ _ hb, hstep _ hnone]

theorem SetBindGroup_without_pipeline_witness :
    (RecordCommands sampleHeaders (fun _ => 0) (fun _ => 0)
        ([.DrawArrays 3 1 0 0] ++ .SetBindGroup 0 ⟨21, 22⟩ ::
          [.SetRenderPipeline ⟨11, ⟨12⟩⟩, .DrawArrays 3 1 0 0])).calls =
      (RecordCommands sampleHeaders (fun _ => 0) (fun _ => 0) [.DrawArrays 3 1 0 0]).calls :=
  (SetBindGroup_without_pipeline sampleHeaders (fun _ => 0) (fun _ => 0)
    [.DrawArrays 3 1 0 0] [.SetRenderPipeline ⟨11, ⟨12⟩⟩, .DrawArrays 3 1 0 0] 0 ⟨21, 22⟩
    (by simp)).2.1

/-! ## Promotion of the attachments at `BeginRenderPass` -/

theorem transitionAttachments_append (h : Headers) (framebuffer : Framebuffer)
    (front back : List Nat) :
    ∀ usage : Texture → Nat,
      transitionAttachments h framebuffer (front ++ back) usage =
        ((transitionAttachments h framebuffer back
            (transitionAttachments h framebuffer front usage).1).1,
         (transitionAttachments h framebuffer front usage).2 ++
          (transitionAttachments h framebuffer back
            (transitionAttachments h framebuffer front usage).1).2) := by
  induction front with
  | nil => intro usage; simp [transitionAttachments]
  | cons i more ih =>
    intro usage
    rw [List.cons_append]
    by_cases htag : usage (framebuffer.textureView i).texture &&& h.OutputAttachment ≠ 0
    · rw [transitionAttachments, if_pos htag, ih usage]
      conv_rhs => rw [transitionAttachments, if_pos htag]
    · rw [transitionAttachments, if_neg htag, ih]
      conv_rhs => rw [transitionAttachments, if_neg htag]
      simp

/-- One turn of the attachment loop, at index `i`. -/
theorem transitionAttachments_single (h : Headers) (framebuffer : Framebuffer) (i : Nat)
    (usage : Texture → Nat) :
    transitionAttachments h framebuffer [i] usage =
      if usage (framebuffer.textureView i).texture &&& h.OutputAttachment ≠ 0 then (usage, [])
      else (setTextureUsage usage (framebuffer.textureView i).texture h.OutputAttachment,
        [Call.TextureRecordBarrier (framebuffer.textureView i).texture
          (usage (framebuffer.textureView i).texture) h.OutputAttachment]) := by
  simp only [transitionAttachments]

/-- The usages after the turn at index `i`, from those after the turns before. -/
theorem transitionAttachments_usage_succ (h : Headers) (framebuffer : Framebuffer)
    (usage : Texture → Nat) (i : Nat) :
    (transitionAttachments h framebuffer (List.range (i + 1)) usage).1 =
      if (transitionAttachments h framebuffer (List.range i) usage).1
          (framebuffer.textureView i).texture &&& h.OutputAttachment ≠ 0
      then (transitionAttachments h framebuffer (List.range i) usage).1
      else setTextureUsage (transitionAttachments h framebuffer (List.range i) usage).1
        (framebuffer.textureView i).texture h.OutputAttachment := by
  rw [List.range_succ, transitionAttachments_append, transitionAttachments_single]
  split_ifs <;> rfl

/-- The barriers up to the turn at index `i`, from those of the turns before. -/
theorem transitionAttachments_barriers_succ (h : Headers) (framebuffer : Framebuffer)
    (usage : Texture → Nat) (i : Nat) :
    (transitionAttachments h framebuffer (List.range (i + 1)) usage).2 =
      (transitionAttachments h framebuffer (List.range i) usage).2 ++
      if (transitionAttachments h framebuffer (List.range i) usage).1
          (framebuffer.textureView i).texture &&& h.OutputAttachment ≠ 0
      then []
      else [Call.TextureRecordBarrier (framebuffer.textureView i).texture
        ((transitionAttachments h framebuffer (List.range i) usage).1
          (framebuffer.textureView i).texture) h.OutputAttachment] := by
  rw [List.range_succ, transitionAttachments_append, transitionAttachments_single]
  split_ifs <;> rfl

/-- The usages after the turns `0 .. i-1` of the attachment loop: a texture is at
`OutputAttachment` when it is one of the attachments `0 .. i-1` and did not carry
the bit before the loop, and at its usage before the loop otherwise. -/
theorem transitionAttachments_usage (h : Headers) (hbit : h.OutputAttachment ≠ 0)
    (framebuffer : Framebuffer) (usage : Texture → Nat) (i : Nat) (t : Texture) :
    (transitionAttachments h framebuffer (List.range i) usage).1 t =
      if (∃ j, j < i ∧ (framebuffer.textureView j).texture = t) ∧
          usage t &&& h.OutputAttachment = 0
      then h.OutputAttachment else usage t := by
  induction i generalizing t with
  | zero => simp [transitionAttachments]
  | succ i ih =>
    rw [transitionAttachments_usage_succ]
    generalize (transitionAttachments h framebuffer (List.range i) usage).1 = X at ih ⊢
    have hself : h.OutputAttachment &&& h.OutputAttachment ≠ 0 := by
      rw [Nat.and_self]; exact hbit
    by_cases heq : (framebuffer.textureView i).texture = t
    · subst heq
      have hex : ∃ j, j < i + 1 ∧
          (framebuffer.textureView j).texture = (framebuffer.textureView i).texture :=
        ⟨i, Nat.lt_succ_self i, rfl⟩
      by_cases h0 : usage (framebuffer.textureView i).texture &&& h.OutputAttachment = 0
      · by_cases hprev : ∃ j, j < i ∧
            (framebuffer.textureView j).texture = (framebuffer.textureView i).texture
        · have hXa : X (framebuffer.textureView i).texture = h.OutputAttachment := by
            rw [ih]; simp [hprev, h0]
          simp [hXa, hbit, hex, h0]
        · have hXa : X (framebuffer.textureView i).texture =
              usage (framebuffer.textureView i).texture := by
            rw [ih]; simp [hprev]
          simp [hXa, hex, h0, setTextureUsage]
      · have hXa : X (framebuffer.textureView i).texture =
            usage (framebuffer.textureView i).texture := by
          rw [ih]; simp [h0]
        simp [hXa, h0]
    · have hiff : (∃ j, j < i + 1 ∧ (framebuffer.textureView j).texture = t) ↔
          (∃ j, j < i ∧ (framebuffer.textureView j).texture = t) := by
        constructor
        · rintro ⟨j, hj, hjt⟩
          have hne : j ≠ i := fun hji => heq (hji ▸ hjt)
          exact ⟨j, by omega, hjt⟩
        · rintro ⟨j, hj, hjt⟩
          exact ⟨j, by omega, hjt⟩
      have hkeep : (if X (framebuffer.textureView i).texture &&& h.OutputAttachment ≠ 0
          then X
          else setTextureUsage X (framebuffer.textureView i).texture h.OutputAttachment) t
          = X t := by
        split_ifs
        · rfl
        · simp [setTextureUsage, Ne.symm heq]
      rw [hkeep, ih]
      simp only [hiff]

/-- The barriers of the attachment loop over the indices below `n`: one for each
index whose texture does not carry the `OutputAttachment` bit when the index is
visited, in ascending order. -/
theorem transitionAttachments_barriers (h : Headers) (framebuffer : Framebuffer)
    (usage : Texture → Nat) (n : Nat) :
    (transitionAttachments h framebuffer (List.range n) usage).2 =
      (List.range n).filterMap (fun i =>
        if (transitionAttachments h framebuffer (List.range i) usage).1
            (framebuffer.textureView i).texture &&& h.OutputAttachment ≠ 0
        then none
        else some (Call.TextureRecordBarrier (framebuffer.textureView i).texture
          ((transitionAttachments h framebuffer (List.range i) usage).1
            (framebuffer.textureView i).texture) h.OutputAttachment)) := by
  induction n with
  | zero => simp [transitionAttachments]
  | succ n ih =>
    rw [transitionAttachments_barriers_succ, ih, List.range_succ, List.filterMap_append]
    congr 1
    by_cases h0 : (transitionAttachments h framebuffer (List.range n) usage).1
        (framebuffer.textureView n).texture &&& h.OutputAttachment = 0
    · simp [h0]
    · simp [h0]

/-- C4: the calls of `BeginRenderPass` (render pass with `n` attachments,
framebuffer `F`) are, first, one `RecordBarrier(current usage, OutputAttachment)`
for each index `i < n` whose texture does not carry the `OutputAttachment` bit when
`i` is visited, in ascending order of `i`, and none for the others; only then, when
both `ASSERT`s hold, `CmdBeginRenderPass` and what follows it.  When `i` is visited
a texture is at `OutputAttachment` if it is an attachment of lower index that did
not carry the bit, else at its usage before the command.  Afterwards every one of
the `n` attachment textures carries the bit: one that did not before is exactly at
`OutputAttachment`, one that did is unchanged.  A sole attachment already at
`OutputAttachment` gets no barrier; a sole attachment at a usage without the bit
gets exactly one. -/
theorem BeginRenderPass_promotes_attachments (h : Headers) (hbit : h.OutputAttachment ≠ 0)
    (st : RecordState) (renderPass : RenderPass) (framebuffer : Framebuffer) :
    (recordCommand h st (.BeginRenderPass renderPass framebuffer)).calls =
      (List.range renderPass.attachmentCount).filterMap (fun i =>
        if usageWhenVisited h framebuffer st.textureUsage i
            (framebuffer.textureView i).texture &&& h.OutputAttachment ≠ 0
        then none
        else some (Call.TextureRecordBarrier (framebuffer.textureView i).texture
          (usageWhenVisited h framebuffer st.textureUsage i
            (framebuffer.textureView i).texture) h.OutputAttachment)) ++
      (if renderPass.subpassCount = 1 ∧
          renderPass.attachmentCount ≤ h.kMaxColorAttachments + 1
        then openRenderPass renderPass framebuffer else []) ∧
    (∀ i t, usageWhenVisited h framebuffer st.textureUsage i t =
      if (∃ j, j < i ∧ (framebuffer.textureView j).texture = t) ∧
          st.textureUsage t &&& h.OutputAttachment = 0
      then h.OutputAttachment else st.textureUsage t) ∧
    (∀ i, i < renderPass.attachmentCount →
      (recordCommand h st (.BeginRenderPass renderPass framebuffer)).state.textureUsage
          (framebuffer.textureView i).texture &&& h.OutputAttachment ≠ 0 ∧
      (st.textureUsage (framebuffer.textureView i).texture &&& h.OutputAttachment = 0 →
        (recordCommand h st (.BeginRenderPass renderPass framebuffer)).state.textureUsage
          (framebuffer.textureView i).texture = h.OutputAttachment) ∧
      (st.textureUsage (framebuffer.textureView i).texture &&& h.OutputAttachment ≠ 0 →
        (recordCommand h st (.BeginRenderPass renderPass framebuffer)).state.textureUsage
          (framebuffer.textureView i).texture =
            st.textureUsage (framebuffer.textureView i).texture)) ∧
    (renderPass.attachmentCount = 1 →
      st.textureUsage (framebuffer.textureView 0).texture = h.OutputAttachment →
      (recordCommand h st (.BeginRenderPass renderPass framebuffer)).calls =
        (if renderPass.subpassCount = 1 ∧
            renderPass.attachmentCount ≤ h.kMaxColorAttachments + 1
          then openRenderPass renderPass framebuffer else [])) ∧
    (renderPass.attachmentCount = 1 →
      st.textureUsage (framebuffer.textureView 0).texture &&& h.OutputAttachment = 0 →
      (recordCommand h st (.BeginRenderPass renderPass framebuffer)).calls =
        Call.TextureRecordBarrier (framebuffer.textureView 0).texture
          (st.textureUsage (framebuffer.textureView 0).texture) h.OutputAttachment ::
        (if renderPass.subpassCount = 1 ∧
            renderPass.attachmentCount ≤ h.kMaxColorAttachments + 1
          then openRenderPass renderPass framebuffer else [])) := by
  have hcalls : (recordCommand h st (.BeginRenderPass renderPass framebuffer)).calls =
      (transitionAttachments h framebuffer (List.range renderPass.attachmentCount)
        st.textureUsage).2 ++
      (if renderPass.subpassCount = 1 ∧
          renderPass.attachmentCount ≤ h.kMaxColorAttachments + 1
        then openRenderPass renderPass framebuffer else []) := by
    by_cases hgood : renderPass.subpassCount = 1 ∧
        renderPass.attachmentCount ≤ h.kMaxColorAttachments + 1
    · rw [recordCommand_BeginRenderPass_ok h st _ _ hgood.1 hgood.2, if_pos hgood]
    · have hbad : renderPass.subpassCount ≠ 1 ∨
          h.kMaxColorAttachments + 1 < renderPass.attachmentCount := by
        by_cases hsub : renderPass.subpassCount = 1
        · right
          have := fun hle => hgood ⟨hsub, hle⟩
          omega
        · exact Or.inl hsub
      rw [recordCommand_BeginRenderPass_fatal h st _ _ hbad, if_neg hgood]
      simp
  have hstate : (recordCommand h st (.BeginRenderPass renderPass framebuffer)).state.textureUsage
      = (transitionAttachments h framebuffer (List.range renderPass.attachmentCount)
        st.textureUsage).1 := by
    simp only [recordCommand]
    split_ifs <;> rfl
  have hself : h.OutputAttachment &&& h.OutputAttachment ≠ 0 := by
    rw [Nat.and_self]; exact hbit
  refine ⟨?_, ?_, ?_, ?_, ?_⟩
  · rw [hcalls, transitionAttachments_barriers]
    rfl
  · intro i t
    exact transitionAttachments_usage h hbit framebuffer st.textureUsage i t
  · intro i hi
    rw [hstate, transitionAttachments_usage h hbit]
    have hex : ∃ j, j < renderPass.attachmentCount ∧
        (framebuffer.textureView j).texture = (framebuffer.textureView i).texture :=
      ⟨i, hi, rfl⟩
    by_cases h0 : st.textureUsage (framebuffer.textureView i).texture &&&
        h.OutputAttachment = 0
    · simp [hex, h0, hbit]
    · simp [h0]
  · intro hn hu
    rw [hcalls, hn]
    have htag : st.textureUsage (framebuffer.textureView 0).texture &&&
        h.OutputAttachment ≠ 0 := by rw [hu]; exact hself
    simp [List.range_succ, transitionAttachments, htag]
  · intro hn hu
    rw [hcalls, hn]
    simp [List.range_succ, transitionAttachments, hu]

theorem BeginRenderPass_promotes_attachments_witness :
    (recordCommand sampleHeaders sampleState
        (.BeginRenderPass sampleRenderPass sampleFramebuffer)).calls =
      Call.TextureRecordBarrier sampleTexture 4 16 ::
        openRenderPass sampleRenderPass sampleFramebuffer :=
  (BeginRenderPass_promotes_attachments sampleHeaders (by decide) sampleState
    sampleRenderPass sampleFramebuffer).2.2.2.2 rfl (by decide)

/-! ## Usage transitions -/

/-- A stream of transition commands runs to its end. -/
theorem recordLoop_transitions_ok (h : Headers) (cmds : List Command)
    (hcmds : ∀ c ∈ cmds, (∃ b u, c = Command.TransitionBufferUsage b u) ∨
      (∃ t u, c = Command.TransitionTextureUsage t u)) :
    ∀ st : RecordState, (recordLoop h st cmds).status = .ok := by
  induction cmds with
  | nil => intro st; rfl
  | cons cmd rest ih =>
    intro st
    have hrest := fun c hc => hcmds c (List.mem_cons_of_mem _ hc)
    rcases hcmds cmd (List.mem_cons_self _ _) with ⟨b, u, rfl⟩ | ⟨t, u, rfl⟩
    · rw [recordLoop_cons_ok h st (.TransitionBufferUsage b u) rest rfl]
      exact ih hrest _
    · rw [recordLoop_cons_ok h st (.TransitionTextureUsage t u) rest rfl]
      exact ih hrest _

/-- A stream of transition commands none of which names the buffer `buffer` leaves
its usage as it was. -/
theorem recordLoop_transitions_other_buffer (h : Headers) (buffer : Buffer)
    (cmds : List Command)
    (hcmds : ∀ c ∈ cmds, (∃ b u, c = Command.TransitionBufferUsage b u) ∨
      (∃ t u, c = Command.TransitionTextureUsage t u))
    (hother : ∀ c ∈ cmds, ∀ u, c ≠ Command.TransitionBufferUsage buffer u) :
    ∀ st : RecordState, (recordLoop h st cmds).state.bufferUsage buffer
      = st.bufferUsage buffer := by
  induction cmds with
  | nil => intro st; rfl
  | cons cmd rest ih =>
    intro st
    have hrest := fun c hc => hcmds c (List.mem_cons_of_mem _ hc)
    have horest := fun c hc => hother c (List.mem_cons_of_mem _ hc)
    have hhead := hother cmd (List.mem_cons_self _ _)
    rcases hcmds cmd (List.mem_cons_self _ _) with ⟨b, u, rfl⟩ | ⟨t, u, rfl⟩
    · rw [recordLoop_cons_ok h st (.TransitionBufferUsage b u) rest rfl]
      simp only
      rw [ih hrest horest]
      have hne : buffer ≠ b := fun hb => hhead u (by rw [hb])
      simp [recordCommand, setBufferUsage, hne]
    · rw [recordLoop_cons_ok h st (.TransitionTextureUsage t u) rest rfl]
      simp only
      rw [ih hrest horest]
      rfl

/-- A stream of transition commands none of which names the texture `texture`
leaves its usage as it was. -/
theorem recordLoop_transitions_other_texture (h : Headers) (texture : Texture)
    (cmds : List Command)
    (hcmds : ∀ c ∈ cmds, (∃ b u, c = Command.TransitionBufferUsage b u) ∨
      (∃ t u, c = Command.TransitionTextureUsage t u))
    (hother : ∀ c ∈ cmds, ∀ u, c ≠ Command.TransitionTextureUsage texture u) :
    ∀ st : RecordState, (recordLoop h st cmds).state.textureUsage texture
      = st.textureUsage texture := by
  induction cmds with
  | nil => intro st; rfl
  | cons cmd rest ih =>
    intro st
    have hrest := fun c hc => hcmds c (List.mem_cons_of_mem _ hc)
    have horest := fun c hc => hother c (List.mem_cons_of_mem _ hc)
    have hhead := hother cmd (List.mem_cons_self _ _)
    rcases hcmds cmd (List.mem_cons_self _ _) with ⟨b, u, rfl⟩ | ⟨t, u, rfl⟩
    · rw [recordLoop_cons_ok h st (.TransitionBufferUsage b u) rest rfl]
      simp only
      rw [ih hrest horest]
      rfl
    · rw [recordLoop_cons_ok h st (.TransitionTextureUsage t u) rest rfl]
      simp only
      rw [ih hrest horest]
      have hne : texture ≠ t := fun ht => hhead u (by rw [ht])
      simp [recordCommand, setTextureUsage, hne]

/-- C5: a `TransitionBufferUsage` or `TransitionTextureUsage` command with
requested usage `u` on a resource whose tracked usage is `c` runs to its `break`
with exactly one call, `RecordBarrier(c, u)` on that resource, and leaves the
resource at usage `u` and every other resource as it was; this holds for `c = u`
too.  Hence a stream made of transition commands runs to its end, and a resource
named by one of them ends at the usage requested by the last command that names
it. -/
theorem transition_records_barrier_and_commits (h : Headers) :
    (∀ (st : RecordState) (buffer : Buffer) (u : Nat),
      (recordCommand h st (.TransitionBufferUsage buffer u)).status = .ok ∧
      (recordCommand h st (.TransitionBufferUsage buffer u)).calls =
        [.BufferRecordBarrier buffer (st.bufferUsage buffer) u] ∧
      (recordCommand h st (.TransitionBufferUsage buffer u)).state.bufferUsage buffer = u ∧
      (∀ other, other ≠ buffer →
        (recordCommand h st (.TransitionBufferUsage buffer u)).state.bufferUsage other =
          st.bufferUsage other) ∧
      (recordCommand h st (.TransitionBufferUsage buffer u)).state.textureUsage =
        st.textureUsage) ∧
    (∀ (st : RecordState) (texture : Texture) (u : Nat),
      (recordCommand h st (.TransitionTextureUsage texture u)).status = .ok ∧
      (recordCommand h st (.TransitionTextureUsage texture u)).calls =
        [.TextureRecordBarrier texture (st.textureUsage texture) u] ∧
      (recordCommand h st (.TransitionTextureUsage texture u)).state.textureUsage texture
        = u ∧
      (∀ other, other ≠ texture →
        (recordCommand h st (.TransitionTextureUsage texture u)).state.textureUsage other =
          st.textureUsage other) ∧
      (recordCommand h st (.TransitionTextureUsage texture u)).state.bufferUsage =
        st.bufferUsage) ∧
    (∀ (bufferUsage : Buffer → Nat) (textureUsage : Texture → Nat) (cmds : List Command),
      (∀ c ∈ cmds, (∃ b u, c = Command.TransitionBufferUsage b u) ∨
        (∃ t u, c = Command.TransitionTextureUsage t u)) →
      (RecordCommands h bufferUsage textureUsage cmds).status = .ok ∧
      (∀ (front back : List Command) (buffer : Buffer) (u : Nat),
        cmds = front ++ .TransitionBufferUsage buffer u :: back →
        (∀ c ∈ back, ∀ v, c ≠ Command.TransitionBufferUsage buffer v) →
        (RecordCommands h bufferUsage textureUsage cmds).state.bufferUsage buffer = u) ∧
      (∀ (front back : List Command) (texture : Texture) (u : Nat),
        cmds = front ++ .TransitionTextureUsage texture u :: back →
        (∀ c ∈ back, ∀ v, c ≠ Command.TransitionTextureUsage texture v) →
        (RecordCommands h bufferUsage textureUsage cmds).state.textureUsage texture = u)) := by
  refine ⟨?_, ?_, ?_⟩
  · intro st buffer u
    refine ⟨rfl, rfl, ?_, ?_, rfl⟩
    · simp [recordCommand, setBufferUsage]
    · intro other hne
      simp [recordCommand, setBufferUsage, hne]
  · intro st texture u
    refine ⟨rfl, rfl, ?_, ?_, rfl⟩
    · simp [recordCommand, setTextureUsage]
    · intro other hne
      simp [recordCommand, setTextureUsage, hne]
  · intro bufferUsage textureUsage cmds hcmds
    unfold RecordCommands
    refine ⟨recordLoop_transitions_ok h cmds hcmds _, ?_, ?_⟩
    · intro front back buffer u hsplit hback
      subst hsplit
      have hfront : ∀ c ∈ front, (∃ b u, c = Command.TransitionBufferUsage b u) ∨
          (∃ t u, c = Command.TransitionTextureUsage t u) :=
        fun c hc => hcmds c (List.mem_append_left _ hc)
      have hbackT : ∀ c ∈ back, (∃ b u, c = Command.TransitionBufferUsage b u) ∨
          (∃ t u, c = Command.TransitionTextureUsage t u) :=
        fun c hc => hcmds c (List.mem_append_right _ (List.mem_cons_of_mem _ hc))
      rw [recordLoop_append_ok h front _ _ (recordLoop_transitions_ok h front hfront _)]
      simp only
      rw [recordLoop_cons_ok h _ (.TransitionBufferUsage buffer u) back rfl]
      simp only
      rw [recordLoop_transitions_other_buffer h buffer back hbackT hback]
      simp [recordCommand, setBufferUsage]
    · intro front back texture u hsplit hback
      subst hsplit
      have hfront : ∀ c ∈ front, (∃ b u, c = Command.TransitionBufferUsage b u) ∨
          (∃ t u, c = Command.TransitionTextureUsage t u) :=
        fun c hc => hcmds c (List.mem_append_left _ hc)
      have hbackT : ∀ c ∈ back, (∃ b u, c = Command.TransitionBufferUsage b u) ∨
          (∃ t u, c = Command.TransitionTextureUsage t u) :=
        fun c hc => hcmds c (List.mem_append_right _ (List.mem_cons_of_mem _ hc))
      rw [recordLoop_append_ok h front _ _ (recordLoop_transitions_ok h front hfront _)]
      simp only
      rw [recordLoop_cons_ok h _ (.TransitionTextureUsage texture u) back rfl]
      simp only
      rw [recordLoop_transitions_other_texture h texture back hbackT hback]
      simp [recordCommand, setTextureUsage]

theorem transition_records_barrier_and_commits_witness :
    (RecordCommands sampleHeaders (fun _ => 1) (fun _ => 4)
      [.TransitionBufferUsage ⟨31, 32⟩ 2, .TransitionBufferUsage ⟨31, 32⟩ 8,
       .TransitionBufferUsage ⟨31, 32⟩ 2, .TransitionBufferUsage ⟨31, 32⟩ 2,
       .TransitionTextureUsage sampleTexture 16]).state.bufferUsage ⟨31, 32⟩ = 2 :=
  ((transition_records_barrier_and_commits sampleHeaders).2.2 (fun _ => 1) (fun _ => 4)
    [.TransitionBufferUsage ⟨31, 32⟩ 2, .TransitionBufferUsage ⟨31, 32⟩ 8,
     .TransitionBufferUsage ⟨31, 32⟩ 2, .TransitionBufferUsage ⟨31, 32⟩ 2,
     .TransitionTextureUsage sampleTexture 16]
    (by simp)).2.1
    [.TransitionBufferUsage ⟨31, 32⟩ 2, .TransitionBufferUsage ⟨31, 32⟩ 8,
     .TransitionBufferUsage ⟨31, 32⟩ 2]
    [.TransitionTextureUsage sampleTexture 16] ⟨31, 32⟩ 2 rfl (by simp)

/-! ## Bind groups -/

theorem mem_IterateBitSet (size mask i : Nat) :
    i ∈ IterateBitSet size mask ↔ i < size ∧ mask.testBit i = true := by
  simp [IterateBitSet]

theorem IterateBitSet_length_le (size mask : Nat) :
    (IterateBitSet size mask).length ≤ size := by
  unfold IterateBitSet
  calc ((List.range size).filter (fun i => mask.testBit i)).length
      ≤ (List.range size).length := List.length_filter_le _ _
    _ = size := List.length_range size

theorem IterateBitSet_pairwise (size mask : Nat) :
    (IterateBitSet size mask).Pairwise (· < ·) :=
  (List.pairwise_lt_range size).sublist (List.filter_sublist _)

theorem IterateBitSet_length (size mask : Nat) :
    (IterateBitSet size mask).length =
      ((Finset.range size).filter (fun i => mask.testBit i = true)).card := by
  have hnodup : (IterateBitSet size mask).Nodup := (List.nodup_range size).filter _
  rw [← List.toFinset_card_of_nodup hnodup]
  congr 1
  ext i
  simp [mem_IterateBitSet]

/-- The set bits of the mask `5`, in a bit set of at least three bits. -/
theorem IterateBitSet_five (size : Nat) (hsize : 3 ≤ size) : IterateBitSet size 5 = [0, 2] := by
  obtain ⟨k, rfl⟩ : ∃ k, size = 3 + k := ⟨size - 3, by omega⟩
  unfold IterateBitSet
  rw [List.range_add, List.filter_append]
  have hhigh : ((List.range k).map (3 + ·)).filter (fun i => Nat.testBit 5 i) = [] := by
    rw [List.filter_eq_nil_iff]
    intro i hi
    obtain ⟨j, _, rfl⟩ := List.mem_map.mp hi
    have hlt : 5 < 2 ^ (3 + j) :=
      calc 5 < 2 ^ 3 := by norm_num
        _ ≤ 2 ^ (3 + j) := Nat.pow_le_pow_right (by norm_num) (by omega)
    simp [Nat.testBit_lt_two_pow hlt]
  rw [hhigh]
  decide

/-- The loop of the constructor when every index has a supported kind and the
writes fit in the scratch arrays: one write per index, in the order of the
indices. -/
theorem fillWrites_supported (h : Headers) (builder : BindGroupBuilder) (mHandle : Nat)
    (indices : List Nat) :
    ∀ writes : List VkWriteDescriptorSet,
      writes.length + indices.length ≤ h.kMaxBindingsPerGroup →
      (∀ i ∈ indices, builder.layout.types i = .UniformBuffer ∨
        builder.layout.types i = .StorageBuffer) →
      fillWrites h builder mHandle indices writes =
        (.ok, writes ++ indices.map (descriptorWrite h builder mHandle)) := by
  induction indices with
  | nil => intro writes _ _; simp [fillWrites]
  | cons i rest ih =>
    intro writes hfit hkinds
    have hroom : ¬ h.kMaxBindingsPerGroup ≤ writes.length := by
      simp only [List.length_cons] at hfit; omega
    have hrest := fun j hj => hkinds j (List.mem_cons_of_mem _ hj)
    have hnext : (writes ++ [descriptorWrite h builder mHandle i]).length + rest.length
        ≤ h.kMaxBindingsPerGroup := by
      simp only [List.length_cons, List.length_append, List.length_nil] at hfit ⊢; omega
    rcases hkinds i (List.mem_cons_self _ _) with hty | hty
    · simp only [fillWrites, if_neg hroom, hty]
      rw [ih _ hnext hrest]
      simp
    · simp only [fillWrites, if_neg hroom, hty]
      rw [ih _ hnext hrest]
      simp

/-- The loop of the constructor when some index has an unsupported kind and the
writes fit in the scratch arrays: it reaches `UNREACHABLE()`. -/
theorem fillWrites_unsupported (h : Headers) (builder : BindGroupBuilder) (mHandle : Nat)
    (indices : List Nat) :
    ∀ writes : List VkWriteDescriptorSet,
      writes.length + indices.length ≤ h.kMaxBindingsPerGroup →
      (∃ i ∈ indices, builder.layout.types i ≠ .UniformBuffer ∧
        builder.layout.types i ≠ .StorageBuffer) →
      (fillWrites h builder mHandle indices writes).1 = .fatal := by
  induction indices with
  | nil => intro writes _ hex; simp at hex
  | cons i rest ih =>
    intro writes hfit hex
    have hroom : ¬ h.kMaxBindingsPerGroup ≤ writes.length := by
      simp only [List.length_cons] at hfit; omega
    have hnext : (writes ++ [descriptorWrite h builder mHandle i]).length + rest.length
        ≤ h.kMaxBindingsPerGroup := by
      simp only [List.length_cons, List.length_append, List.length_nil] at hfit ⊢; omega
    have hrestex : (builder.layout.types i = .UniformBuffer ∨
        builder.layout.types i = .StorageBuffer) →
        ∃ j ∈ rest, builder.layout.types j ≠ .UniformBuffer ∧
          builder.layout.types j ≠ .StorageBuffer := by
      intro hsup
      obtain ⟨j, hj, hju, hjs⟩ := hex
      rcases List.mem_cons.mp hj with rfl | hj
      · rcases hsup with hs | hs
        · exact absurd hs hju
        · exact absurd hs hjs
      · exact ⟨j, hj, hju, hjs⟩
    cases hty : builder.layout.types i with
    | UniformBuffer =>
      simp only [fillWrites, if_neg hroom, hty]
      exact ih _ hnext (hrestex (Or.inl hty))
    | StorageBuffer =>
      simp only [fillWrites, if_neg hroom, hty]
      exact ih _ hnext (hrestex (Or.inr hty))
    | Sampler => simp only [fillWrites, if_neg hroom, hty]
    | SampledTexture => simp only [fillWrites, if_neg hroom, hty]
    | Other v => simp only [fillWrites, if_neg hroom, hty]

/-- The constructor when pool creation and set allocation succeed: the outcome of
the loop over the occupied indices decides. -/
theorem constructor_of_success (h : Headers) (fn : DeviceFn) (builder : BindGroupBuilder)
    (hpool : (fn.CreateDescriptorPool (poolCreateInfo builder)).1 = VK_SUCCESS)
    (halloc : (fn.AllocateDescriptorSets (setAllocateInfo builder
      (fn.CreateDescriptorPool (poolCreateInfo builder)).2)).1 = VK_SUCCESS) :
    BindGroup.constructor h fn builder =
      match (fillWrites h builder
          (fn.AllocateDescriptorSets (setAllocateInfo builder
            (fn.CreateDescriptorPool (poolCreateInfo builder)).2)).2
          (IterateBitSet h.kMaxBindingsPerGroup builder.layout.mask) []).1 with
      | .ok =>
        ⟨.ok, ⟨(fn.CreateDescriptorPool (poolCreateInfo builder)).2,
            (fn.AllocateDescriptorSets (setAllocateInfo builder
              (fn.CreateDescriptorPool (poolCreateInfo builder)).2)).2⟩,
          [.CreateDescriptorPool (poolCreateInfo builder),
           .AllocateDescriptorSets (setAllocateInfo builder
              (fn.CreateDescriptorPool (poolCreateInfo builder)).2),
           .UpdateDescriptorSets
              (fillWrites h builder
                (fn.AllocateDescriptorSets (setAllocateInfo builder
                  (fn.CreateDescriptorPool (poolCreateInfo builder)).2)).2
                (IterateBitSet h.kMaxBindingsPerGroup builder.layout.mask) []).2.length
              (fillWrites h builder
                (fn.AllocateDescriptorSets (setAllocateInfo builder
                  (fn.CreateDescriptorPool (poolCreateInfo builder)).2)).2
                (IterateBitSet h.kMaxBindingsPerGroup builder.layout.mask) []).2 0]⟩
      | status =>
        ⟨status, ⟨(fn.CreateDescriptorPool (poolCreateInfo builder)).2,
            (fn.AllocateDescriptorSets (setAllocateInfo builder
              (fn.CreateDescriptorPool (poolCreateInfo builder)).2)).2⟩,
          [.CreateDescriptorPool (poolCreateInfo builder),
           .AllocateDescriptorSets (setAllocateInfo builder
              (fn.CreateDescriptorPool (poolCreateInfo builder)).2)]⟩ := by
  simp only [BindGroup.constructor, hpool, halloc, ne_eq, not_true_eq_false, if_false]

/-- C6: for a layout whose occupied indices all have kind `UniformBuffer` or
`StorageBuffer`, when pool creation and set allocation succeed, the constructor
runs to its end and its calls are `CreateDescriptorPool`, `AllocateDescriptorSets`
and one `UpdateDescriptorSets` with writes `writes`: as many as the mask has set
bits; their `dstBinding`s are strictly ascending and are exactly the occupied
indices (so the k-th write is at the k-th occupied index); each write has
`dstSet` the allocated set, `dstArrayElement` 0, `descriptorCount` 1 and the buffer
info (handle, offset, size) of the view bound at its index.  For the mask with
bits 0 and 2 these are exactly two writes, at bindings 0 and 2. -/
theorem BindGroup_constructor_writes (h : Headers) (fn : DeviceFn)
    (builder : BindGroupBuilder)
    (hpool : (fn.CreateDescriptorPool (poolCreateInfo builder)).1 = VK_SUCCESS)
    (halloc : (fn.AllocateDescriptorSets (setAllocateInfo builder
      (fn.CreateDescriptorPool (poolCreateInfo builder)).2)).1 = VK_SUCCESS)
    (hkinds : ∀ i, i < h.kMaxBindingsPerGroup → builder.layout.mask.testBit i = true →
      builder.layout.types i = .UniformBuffer ∨ builder.layout.types i = .StorageBuffer) :
    ∃ writes : List VkWriteDescriptorSet,
      (BindGroup.constructor h fn builder).status = .ok ∧
      (BindGroup.constructor h fn builder).calls =
        [.CreateDescriptorPool (poolCreateInfo builder),
         .AllocateDescriptorSets (setAllocateInfo builder
            (fn.CreateDescriptorPool (poolCreateInfo builder)).2),
         .UpdateDescriptorSets writes.length writes 0] ∧
      (BindGroup.constructor h fn builder).self.mHandle =
        (fn.AllocateDescriptorSets (setAllocateInfo builder
          (fn.CreateDescriptorPool (poolCreateInfo builder)).2)).2 ∧
      writes.length = ((Finset.range h.kMaxBindingsPerGroup).filter
        (fun i => builder.layout.mask.testBit i = true)).card ∧
      (writes.map (fun w => w.dstBinding)).Pairwise (· < ·) ∧
      (∀ i, i ∈ writes.map (fun w => w.dstBinding) ↔
        i < h.kMaxBindingsPerGroup ∧ builder.layout.mask.testBit i = true) ∧
      (∀ w ∈ writes,
        w.dstSet = (BindGroup.constructor h fn builder).self.mHandle ∧
        w.dstArrayElement = 0 ∧ w.descriptorCount = 1 ∧
        w.pBufferInfo.buffer = (builder.bindingAsBufferView w.dstBinding).buffer.handle ∧
        w.pBufferInfo.offset = (builder.bindingAsBufferView w.dstBinding).offset ∧
        w.pBufferInfo.range = (builder.bindingAsBufferView w.dstBinding).size) ∧
      (builder.layout.mask = 5 → 3 ≤ h.kMaxBindingsPerGroup →
        writes.map (fun w => w.dstBinding) = [0, 2]) := by
  have hfill := fillWrites_supported h builder
    (fn.AllocateDescriptorSets (setAllocateInfo builder
      (fn.CreateDescriptorPool (poolCreateInfo builder)).2)).2
    (IterateBitSet h.kMaxBindingsPerGroup builder.layout.mask) []
    (by simpa using IterateBitSet_length_le _ _)
    (fun i hi => hkinds i ((mem_IterateBitSet _ _ i).mp hi).1 ((mem_IterateBitSet _ _ i).mp hi).2)
  have hcons := constructor_of_success h fn builder hpool halloc
  rw [hfill] at hcons
  simp only [List.nil_append] at hcons
  have hmap : ((IterateBitSet h.kMaxBindingsPerGroup builder.layout.mask).map
      (descriptorWrite h builder
        (fn.AllocateDescriptorSets (setAllocateInfo builder
          (fn.CreateDescriptorPool (poolCreateInfo builder)).2)).2)).map
        (fun w => w.dstBinding)
      = IterateBitSet h.kMaxBindingsPerGroup builder.layout.mask := by
    rw [List.map_map]
    exact List.map_id _
  refine ⟨(IterateBitSet h.kMaxBindingsPerGroup builder.layout.mask).map
    (descriptorWrite h builder
      (fn.AllocateDescriptorSets (setAllocateInfo builder
        (fn.CreateDescriptorPool (poolCreateInfo builder)).2)).2), ?_, ?_, ?_, ?_, ?_, ?_, ?_, ?_⟩
  · rw [hcons]
  · rw [hcons]
  · rw [hcons]
  · rw [List.length_map, IterateBitSet_length]
  · rw [hmap]; exact IterateBitSet_pairwise _ _
  · intro i; rw [hmap]; exact mem_IterateBitSet _ _ i
  · intro w hw
    obtain ⟨i, _, rfl⟩ := List.mem_map.mp hw
    rw [hcons]
    exact ⟨rfl, rfl, rfl, rfl, rfl, rfl⟩
  · intro hmask hsize
    rw [hmap, hmask]
    exact IterateBitSet_five _ hsize

theorem BindGroup_constructor_writes_witness :
    ∃ writes : List VkWriteDescriptorSet,
      (BindGroup.constructor sampleHeaders sampleDeviceFn sampleBuilder).calls =
        [.CreateDescriptorPool ⟨0, 1, 2, [(6, 1), (7, 1)]⟩,
         .AllocateDescriptorSets ⟨81, 1, [71]⟩,
         .UpdateDescriptorSets writes.length writes 0] ∧
      writes.map (fun w => w.dstBinding) = [0, 2] :=
  (BindGroup_constructor_writes sampleHeaders sampleDeviceFn sampleBuilder rfl rfl
    (by
      intro i hi hbit
      have hcases : i = 0 ∨ i = 2 := by
        have hmem := (mem_IterateBitSet 16 5 i).mpr ⟨hi, hbit⟩
        rw [IterateBitSet_five 16 (by norm_num)] at hmem
        simpa using hmem
      rcases hcases with rfl | rfl
      · exact Or.inl rfl
      · exact Or.inr rfl)).imp
    (fun _ hw => ⟨hw.2.1, hw.2.2.2.2.2.2.2 rfl (by decide)⟩)

/-- The loop of the constructor over the occupied indices of a layout ends at
`UNREACHABLE()` when one of them has an unsupported kind, and runs to its end
otherwise. -/
theorem fillWrites_status (h : Headers) (builder : BindGroupBuilder) (mHandle : Nat) :
    ((fillWrites h builder mHandle
        (IterateBitSet h.kMaxBindingsPerGroup builder.layout.mask) []).1 = .fatal ∧
      ∃ i, i < h.kMaxBindingsPerGroup ∧ builder.layout.mask.testBit i = true ∧
        builder.layout.types i ≠ .UniformBuffer ∧ builder.layout.types i ≠ .StorageBuffer) ∨
    ((fillWrites h builder mHandle
        (IterateBitSet h.kMaxBindingsPerGroup builder.layout.mask) []).1 = .ok ∧
      ¬ ∃ i, i < h.kMaxBindingsPerGroup ∧ builder.layout.mask.testBit i = true ∧
        builder.layout.types i ≠ .UniformBuffer ∧ builder.layout.types i ≠ .StorageBuffer) := by
  have hfit : ([] : List VkWriteDescriptorSet).length +
      (IterateBitSet h.kMaxBindingsPerGroup builder.layout.mask).length
        ≤ h.kMaxBindingsPerGroup := by
    simpa using IterateBitSet_length_le _ _
  by_cases hex : ∃ i, i < h.kMaxBindingsPerGroup ∧ builder.layout.mask.testBit i = true ∧
      builder.layout.types i ≠ .UniformBuffer ∧ builder.layout.types i ≠ .StorageBuffer
  · left
    refine ⟨fillWrites_unsupported h builder mHandle _ [] hfit ?_, hex⟩
    obtain ⟨i, hi, hbit, hu, hs⟩ := hex
    exact ⟨i, (mem_IterateBitSet _ _ i).mpr ⟨hi, hbit⟩, hu, hs⟩
  · right
    refine ⟨?_, hex⟩
    rw [fillWrites_supported h builder mHandle _ [] hfit]
    intro i hi
    have hmem := (mem_IterateBitSet _ _ i).mp hi
    by_contra hnot
    push_neg at hnot
    exact hex ⟨i, hmem.1, hmem.2, hnot.1, hnot.2⟩

/-- C7: the constructor ends in the fatal outcome if and only if pool creation
returns a code other than `VK_SUCCESS`, or set allocation does, or some occupied
index of the layout has a kind other than `UniformBuffer` and `StorageBuffer`;
otherwise it runs to its end.  In the fatal outcome no `UpdateDescriptorSets` call
is made. -/
theorem BindGroup_constructor_fatal_iff (h : Headers) (fn : DeviceFn)
    (builder : BindGroupBuilder) :
    ((BindGroup.constructor h fn builder).status = .fatal ↔
      ((fn.CreateDescriptorPool (poolCreateInfo builder)).1 ≠ VK_SUCCESS ∨
       (fn.AllocateDescriptorSets (setAllocateInfo builder
          (fn.CreateDescriptorPool (poolCreateInfo builder)).2)).1 ≠ VK_SUCCESS ∨
       ∃ i, i < h.kMaxBindingsPerGroup ∧ builder.layout.mask.testBit i = true ∧
        builder.layout.types i ≠ .UniformBuffer ∧
        builder.layout.types i ≠ .StorageBuffer)) ∧
    ((BindGroup.constructor h fn builder).status = .fatal ∨
      (BindGroup.constructor h fn builder).status = .ok) ∧
    ((BindGroup.constructor h fn builder).status = .fatal →
      ∀ c ∈ (BindGroup.constructor h fn builder).calls, ∀ count writes copies,
        c ≠ DeviceCall.UpdateDescriptorSets count writes copies) := by
  by_cases hpool : (fn.CreateDescriptorPool (poolCreateInfo builder)).1 = VK_SUCCESS
  · by_cases halloc : (fn.AllocateDescriptorSets (setAllocateInfo builder
        (fn.CreateDescriptorPool (poolCreateInfo builder)).2)).1 = VK_SUCCESS
    · have hcons := constructor_of_success h fn builder hpool halloc
      rcases fillWrites_status h builder
          (fn.AllocateDescriptorSets (setAllocateInfo builder
            (fn.CreateDescriptorPool (poolCreateInfo builder)).2)).2 with
        ⟨hst, hex⟩ | ⟨hst, hex⟩
      · rw [hst] at hcons
        simp only at hcons
        rw [hcons]
        refine ⟨⟨fun _ => Or.inr (Or.inr hex), fun _ => rfl⟩, Or.inl rfl, ?_⟩
        intro _ c hc
        simp at hc
        rcases hc with rfl | rfl <;> simp
      · rw [hst] at hcons
        simp only at hcons
        rw [hcons]
        refine ⟨⟨fun hf => by simp at hf, ?_⟩, Or.inr rfl, fun hf => by simp at hf⟩
        rintro (hp | ha | he)
        · exact absurd hpool hp
        · exact absurd halloc ha
        · exact absurd he hex
    · have hcons : BindGroup.constructor h fn builder =
          ⟨.fatal, ⟨(fn.CreateDescriptorPool (poolCreateInfo builder)).2,
              (fn.AllocateDescriptorSets (setAllocateInfo builder
                (fn.CreateDescriptorPool (poolCreateInfo builder)).2)).2⟩,
            [.CreateDescriptorPool (poolCreateInfo builder),
             .AllocateDescriptorSets (setAllocateInfo builder
                (fn.CreateDescriptorPool (poolCreateInfo builder)).2)]⟩ := by
        simp [BindGroup.constructor, hpool, halloc]
      rw [hcons]
      refine ⟨⟨fun _ => Or.inr (Or.inl halloc), fun _ => rfl⟩, Or.inl rfl, ?_⟩
      intro _ c hc
      simp at hc
      rcases hc with rfl | rfl <;> simp
  · have hcons : BindGroup.constructor h fn builder =
        ⟨.fatal, ⟨(fn.CreateDescriptorPool (poolCreateInfo builder)).2, VK_NULL_HANDLE⟩,
          [.CreateDescriptorPool (poolCreateInfo builder)]⟩ := by
      simp [BindGroup.constructor, hpool]
    rw [hcons]
    refine ⟨⟨fun _ => Or.inl hpool, fun _ => rfl⟩, Or.inl rfl, ?_⟩
    intro _ c hc
    simp at hc
    subst hc
    simp

/-- C8: the destructor sets `mHandle` to `VK_NULL_HANDLE`; when `mPool` is not
null it makes exactly one call, `DeleteWhenUnused(mPool)` with the pool the object
held, and sets `mPool` to null; when `mPool` is null it makes no call.  In both
cases it makes no call of the device, so none that destroys, resets or frees the
pool or the set. -/
theorem BindGroup_destructor_defers_pool (self : BindGroup) :
    (BindGroup.destructor self).1.mHandle = VK_NULL_HANDLE ∧
    (BindGroup.destructor self).1.mPool = VK_NULL_HANDLE ∧
    (self.mPool ≠ VK_NULL_HANDLE →
      (BindGroup.destructor self).2 = [.DeleteWhenUnused self.mPool]) ∧
    (self.mPool = VK_NULL_HANDLE → (BindGroup.destructor self).2 = []) ∧
    (∀ c ∈ (BindGroup.destructor self).2,
      c = .DeleteWhenUnused self.mPool ∧
      (∀ pool, c ≠ .DestroyDescriptorPool pool) ∧
      (∀ pool, c ≠ .ResetDescriptorPool pool) ∧
      (∀ pool sets, c ≠ .FreeDescriptorSets pool sets)) := by
  by_cases hpool : self.mPool = VK_NULL_HANDLE
  · have hd : BindGroup.destructor self = (⟨self.mPool, VK_NULL_HANDLE⟩, []) := by
      simp [BindGroup.destructor, hpool]
    rw [hd]
    refine ⟨rfl, hpool, fun hne => absurd hpool hne, fun _ => rfl, ?_⟩
    intro c hc
    simp at hc
  · have hd : BindGroup.destructor self =
        (⟨VK_NULL_HANDLE, VK_NULL_HANDLE⟩, [.DeleteWhenUnused self.mPool]) := by
      simp [BindGroup.destructor, hpool]
    rw [hd]
    refine ⟨rfl, rfl, fun _ => rfl, fun heq => absurd heq hpool, ?_⟩
    intro c hc
    simp at hc
    subst hc
    simp

theorem BindGroup_destructor_defers_pool_witness :
    (BindGroup.destructor ⟨81, 91⟩).2 = [.DeleteWhenUnused 81] :=
  (BindGroup_destructor_defers_pool ⟨81, 91⟩).2.2.1 (by decide)

/-! ## Copies between buffers and textures -/

/-- The conversion to `int32_t` keeps a value below `2 ^ 31`. -/
theorem toInt32_of_lt (value : Nat) (hlt : value < 2 ^ 31) : toInt32 value = (value : Int) := by
  have hmod : value % 2 ^ 32 = value := Nat.mod_eq_of_lt (by omega)
  simp only [toInt32, hmod, if_pos hlt]

/-- The conversion to `int32_t` of an unsigned 32-bit value from `2 ^ 31` on is the
value less `2 ^ 32`. -/
theorem toInt32_of_ge (value : Nat) (hge : 2 ^ 31 ≤ value) (hlt : value < 2 ^ 32) :
    toInt32 value = (value : Int) - 2 ^ 32 := by
  have hmod : value % 2 ^ 32 = value := Nat.mod_eq_of_lt hlt
  have hnot : ¬ value < 2 ^ 31 := by omega
  simp only [toInt32, hmod, if_neg hnot]

/-- C9, as stated, fails: for the origin `(2 ^ 31, 2 ^ 32 - 1, 0)` the region that
`ComputeBufferImageCopyRegion` returns, and that `CopyBufferToTexture` passes to
`CmdCopyBufferToImage`, has `imageOffset = (-2147483648, -1, 0)`, not
`(2147483648, 4294967295, 0)`. -/
theorem copy_region_offset_not_preserved :
    ∃ region : VkBufferImageCopy,
      ComputeBufferImageCopyRegion sampleHeaders 256 ⟨⟨31, 32⟩, 8⟩
        ⟨sampleTexture, 2147483648, 4294967295, 0, 64, 64, 1, 0⟩ = some region ∧
      (recordCommand sampleHeaders sampleState
        (.CopyBufferToTexture ⟨⟨31, 32⟩, 8⟩
          ⟨sampleTexture, 2147483648, 4294967295, 0, 64, 64, 1, 0⟩ 256)).calls =
        [.CmdCopyBufferToImage 32 41 .transferDstOptimal [region]] ∧
      (region.imageOffsetX, region.imageOffsetY, region.imageOffsetZ) =
        (-2147483648, -1, 0) ∧
      ¬ (region.imageOffsetX, region.imageOffsetY, region.imageOffsetZ) =
        ((2147483648 : Int), (4294967295 : Int), (0 : Int)) :=
  ⟨{ bufferOffset := 8, bufferRowLength := 64, bufferImageHeight := 16384
     aspectMask := 1, mipLevel := 0, baseArrayLayer := 0, layerCount := 1
     imageOffsetX := -2147483648, imageOffsetY := -1, imageOffsetZ := 0
     imageExtentWidth := 64, imageExtentHeight := 64, imageExtentDepth := 1 },
    by decide, by decide, by decide, by decide⟩

/-- C9, amended: for a buffer location with offset `o`, a texture location
`(x, y, z, w, h, d, level)` on a texture whose format has texel size `s > 0`, and a
row pitch `p`, `ComputeBufferImageCopyRegion` returns the region with
`bufferOffset = o`, `bufferRowLength = p / s` (rounded down),
`bufferImageHeight = (p * h) mod 2 ^ 32`, `mipLevel = level`, `baseArrayLayer = 0`,
`layerCount = 1`, `imageExtent = (w, h, d)` and `imageOffset` the origin converted
to `int32_t`: `(x, y, z)` when the three are below `2 ^ 31`, and in general, for
each component, the value itself below `2 ^ 31` and the value less `2 ^ 32` from
`2 ^ 31` on.  `CopyBufferToTexture` passes this region, computed from its source
buffer and its destination texture, to `CmdCopyBufferToImage`, and
`CopyTextureToBuffer` passes this region, computed from its destination buffer and
its source texture, to `CmdCopyImageToBuffer`: the texel size is that of the
texture in both. -/
theorem copy_region (hd : Headers) (st : RecordState) (bufferLocation : BufferCopyLocation)
    (textureLocation : TextureCopyLocation) (rowPitch : Nat)
    (hsize : 0 < hd.TextureFormatPixelSize textureLocation.texture.format) :
    ∃ region : VkBufferImageCopy,
      ComputeBufferImageCopyRegion hd rowPitch bufferLocation textureLocation = some region ∧
      region.bufferOffset = bufferLocation.offset ∧
      region.bufferRowLength =
        rowPitch / hd.TextureFormatPixelSize textureLocation.texture.format ∧
      region.bufferImageHeight = (rowPitch * textureLocation.height) % 2 ^ 32 ∧
      region.mipLevel = textureLocation.level ∧
      region.baseArrayLayer = 0 ∧
      region.layerCount = 1 ∧
      (region.imageOffsetX, region.imageOffsetY, region.imageOffsetZ) =
        (toInt32 textureLocation.x, toInt32 textureLocation.y, toInt32 textureLocation.z) ∧
      (textureLocation.x < 2 ^ 31 → textureLocation.y < 2 ^ 31 →
        textureLocation.z < 2 ^ 31 →
        (region.imageOffsetX, region.imageOffsetY, region.imageOffsetZ) =
          ((textureLocation.x : Int), (textureLocation.y : Int), (textureLocation.z : Int))) ∧
      (∀ value : Nat, value < 2 ^ 31 → toInt32 value = (value : Int)) ∧
      (∀ value : Nat, 2 ^ 31 ≤ value → value < 2 ^ 32 →
        toInt32 value = (value : Int) - 2 ^ 32) ∧
      (region.imageExtentWidth, region.imageExtentHeight, region.imageExtentDepth) =
        (textureLocation.width, textureLocation.height, textureLocation.depth) ∧
      (recordCommand hd st (.CopyBufferToTexture bufferLocation textureLocation rowPitch)).status
        = .ok ∧
      (recordCommand hd st (.CopyBufferToTexture bufferLocation textureLocation rowPitch)).calls
        = [.CmdCopyBufferToImage bufferLocation.buffer.handle textureLocation.texture.handle
            .transferDstOptimal [region]] ∧
      (recordCommand hd st (.CopyTextureToBuffer textureLocation bufferLocation rowPitch)).status
        = .ok ∧
      (recordCommand hd st (.CopyTextureToBuffer textureLocation bufferLocation rowPitch)).calls
        = [.CmdCopyImageToBuffer textureLocation.texture.handle .general
            bufferLocation.buffer.handle [region]] := by
  have hne : hd.TextureFormatPixelSize textureLocation.texture.format ≠ 0 := by omega
  have hregion : ComputeBufferImageCopyRegion hd rowPitch bufferLocation textureLocation =
      some
        { bufferOffset := bufferLocation.offset
          bufferRowLength := rowPitch / hd.TextureFormatPixelSize textureLocation.texture.format
          bufferImageHeight := (rowPitch * textureLocation.height) % 2 ^ 32
          aspectMask := textureLocation.texture.aspectMask
          mipLevel := textureLocation.level
          baseArrayLayer := 0
          layerCount := 1
          imageOffsetX := toInt32 textureLocation.x
          imageOffsetY := toInt32 textureLocation.y
          imageOffsetZ := toInt32 textureLocation.z
          imageExtentWidth := textureLocation.width
          imageExtentHeight := textureLocation.height
          imageExtentDepth := textureLocation.depth } := by
    simp [ComputeBufferImageCopyRegion, hne]
  refine ⟨_, hregion, rfl, rfl, rfl, rfl, rfl, rfl, rfl, ?_, toInt32_of_lt, toInt32_of_ge,
    rfl, ?_, ?_, ?_, ?_⟩
  · intro hx hy hz
    simp only [toInt32_of_lt _ hx, toInt32_of_lt _ hy, toInt32_of_lt _ hz]
  all_goals simp only [recordCommand, hregion]

theorem copy_region_witness :
    (recordCommand sampleHeaders sampleState
        (.CopyBufferToTexture ⟨⟨31, 32⟩, 8⟩ ⟨sampleTexture, 1, 2, 3, 64, 2 ^ 20, 1, 5⟩
          (2 ^ 13 + 3))).calls =
      [.CmdCopyBufferToImage 32 41 .transferDstOptimal
        [{ bufferOffset := 8, bufferRowLength := 2048, bufferImageHeight := 3145728
           aspectMask := 1, mipLevel := 5, baseArrayLayer := 0, layerCount := 1
           imageOffsetX := 1, imageOffsetY := 2, imageOffsetZ := 3
           imageExtentWidth := 64, imageExtentHeight := 1048576, imageExtentDepth := 1 }]] := by
  obtain ⟨region, hregion, _, _, _, _, _, _, _, _, _, _, _, _, hcalls, _, _⟩ :=
    copy_region sampleHeaders sampleState ⟨⟨31, 32⟩, 8⟩
      ⟨sampleTexture, 1, 2, 3, 64, 2 ^ 20, 1, 5⟩ (2 ^ 13 + 3) (by decide)
  rw [hcalls]
  have hval : ComputeBufferImageCopyRegion sampleHeaders (2 ^ 13 + 3) ⟨⟨31, 32⟩, 8⟩
      ⟨sampleTexture, 1, 2, 3, 64, 2 ^ 20, 1, 5⟩ = some
        { bufferOffset := 8, bufferRowLength := 2048, bufferImageHeight := 3145728
          aspectMask := 1, mipLevel := 5, baseArrayLayer := 0, layerCount := 1
          imageOffsetX := 1, imageOffsetY := 2, imageOffsetZ := 3
          imageExtentWidth := 64, imageExtentHeight := 1048576, imageExtentDepth := 1 } := by
    decide
  rw [hval] at hregion
  rw [← Option.some.inj hregion]
  rfl

/-! ## The checks of `BeginRenderPass` -/

/-- C10: when the subpass count of the render pass is not 1 or its attachment
count is above `kMaxColorAttachments + 1`, `BeginRenderPass` ends in the fatal
outcome, the replay loop ends there with it, and no `CmdBeginRenderPass` call is
made; when the subpass count is 1 and the attachment count is at most
`kMaxColorAttachments + 1`, the command runs to its `break` and makes exactly one
`CmdBeginRenderPass` call, with render area of offset (0, 0) and extent (width,
height) of the framebuffer and `clearValueCount` the attachment count of the render
pass. -/
theorem BeginRenderPass_checks (h : Headers) (st : RecordState) (renderPass : RenderPass)
    (framebuffer : Framebuffer) :
    ((renderPass.subpassCount ≠ 1 ∨
        h.kMaxColorAttachments + 1 < renderPass.attachmentCount) →
      (recordCommand h st (.BeginRenderPass renderPass framebuffer)).status = .fatal ∧
      (∀ rest, (recordLoop h st (.BeginRenderPass renderPass framebuffer :: rest)).status
        = .fatal) ∧
      (∀ rest, (recordLoop h st (.BeginRenderPass renderPass framebuffer :: rest)).calls
        = (recordCommand h st (.BeginRenderPass renderPass framebuffer)).calls) ∧
      (recordCommand h st (.BeginRenderPass renderPass framebuffer)).calls.filter
        Call.isBeginRenderPass = []) ∧
    ((renderPass.subpassCount = 1 ∧
        renderPass.attachmentCount ≤ h.kMaxColorAttachments + 1) →
      (recordCommand h st (.BeginRenderPass renderPass framebuffer)).status = .ok ∧
      ∃ beginInfo : VkRenderPassBeginInfo,
        (recordCommand h st (.BeginRenderPass renderPass framebuffer)).calls.filter
          Call.isBeginRenderPass = [.CmdBeginRenderPass beginInfo .inline_] ∧
        beginInfo.renderArea =
          { offsetX := 0, offsetY := 0
            extentWidth := framebuffer.width, extentHeight := framebuffer.height } ∧
        beginInfo.clearValueCount = renderPass.attachmentCount ∧
        beginInfo.renderPass = renderPass.handle ∧
        beginInfo.framebuffer = framebuffer.handle) := by
  have hbarriers : (transitionAttachments h framebuffer
      (List.range renderPass.attachmentCount) st.textureUsage).2.filter
        Call.isBeginRenderPass = [] := by
    rw [List.filter_eq_nil_iff]
    intro c hc
    obtain ⟨t, a, b, rfl⟩ := transitionAttachments_calls h framebuffer _ _ c hc
    simp [Call.isBeginRenderPass]
  constructor
  · intro hbad
    have hstep := recordCommand_BeginRenderPass_fatal h st renderPass framebuffer hbad
    have hstop : (recordCommand h st (.BeginRenderPass renderPass framebuffer)).status ≠ .ok := by
      rw [hstep]; simp
    refine ⟨by rw [hstep], ?_, ?_, ?_⟩
    · intro rest
      rw [recordLoop_cons_stop h st _ rest hstop, hstep]
    · intro rest
      rw [recordLoop_cons_stop h st _ rest hstop]
    · rw [hstep]
      exact hbarriers
  · intro hgood
    have hstep := recordCommand_BeginRenderPass_ok h st renderPass framebuffer hgood.1 hgood.2
    refine ⟨by rw [hstep], renderPassBeginInfo renderPass framebuffer, ?_, rfl, rfl, rfl, rfl⟩
    rw [hstep]
    simp only [List.filter_append, hbarriers, List.nil_append]
    rfl

theorem BeginRenderPass_checks_witness :
    (recordCommand sampleHeaders sampleState
        (.BeginRenderPass ⟨61, 6, 1⟩ sampleFramebuffer)).status = .fatal ∧
    (recordCommand sampleHeaders sampleState
        (.BeginRenderPass sampleRenderPass sampleFramebuffer)).status = .ok :=
  ⟨((BeginRenderPass_checks sampleHeaders sampleState ⟨61, 6, 1⟩ sampleFramebuffer).1
      (Or.inr (by decide))).1,
   ((BeginRenderPass_checks sampleHeaders sampleState sampleRenderPass sampleFramebuffer).2
      ⟨rfl, by decide⟩).1⟩

/-! ## `SetVertexBuffers` and the stream cursor -/

theorem map_range_getD {α : Type} (l : List α) (d : α) :
    (List.range l.length).map (fun i => l.getD i d) = l := by
  apply List.ext_getElem
  · simp
  · intro i h1 h2
    simp [List.getD_eq_getElem?_getD, h2]

/-- The loop of `SetVertexBuffers` over indices that are all inside the scratch
arrays and inside the arrays read from the stream: it stores, for each index, the
handle of the buffer and the offset found there. -/
theorem fillVertexBuffers_inside (h : Headers) (buffers : List Buffer) (offsets : List Nat)
    (indices : List Nat)
    (hinside : ∀ i ∈ indices, i < h.kMaxVertexInputs ∧ i < buffers.length ∧
      i < offsets.length) :
    fillVertexBuffers h buffers offsets indices =
      some (indices.map (fun i => ((buffers.getD i ⟨0, 0⟩).handle, offsets.getD i 0))) := by
  induction indices with
  | nil => rfl
  | cons i rest ih =>
    obtain ⟨hmax, hb, ho⟩ := hinside i (List.mem_cons_self _ _)
    have hrest := ih (fun j hj => hinside j (List.mem_cons_of_mem _ hj))
    have hnot : ¬ h.kMaxVertexInputs ≤ i := by omega
    simp only [fillVertexBuffers, if_neg hnot, List.getElem?_eq_getElem hb,
      List.getElem?_eq_getElem ho, hrest, Option.map_some', List.map_cons]
    simp [List.getD_eq_getElem?_getD, List.getElem?_eq_getElem hb,
      List.getElem?_eq_getElem ho]

/-- The loop of `SetVertexBuffers` over the indices below `count`, when `count` is
above `kMaxVertexInputs`: it writes outside the scratch arrays. -/
theorem fillVertexBuffers_overflow (h : Headers) (buffers : List Buffer) (offsets : List Nat)
    (count : Nat) (hover : h.kMaxVertexInputs < count) :
    fillVertexBuffers h buffers offsets (List.range count) = none := by
  have hgen : ∀ indices : List Nat, h.kMaxVertexInputs ∈ indices →
      fillVertexBuffers h buffers offsets indices = none := by
    intro indices
    induction indices with
    | nil => intro hm; simp at hm
    | cons i rest ih =>
      intro hm
      by_cases hle : h.kMaxVertexInputs ≤ i
      · simp [fillVertexBuffers, hle]
      · have hne : h.kMaxVertexInputs ≠ i := by omega
        have hin : h.kMaxVertexInputs ∈ rest := by
          rcases List.mem_cons.mp hm with hm | hm
          · exact absurd hm hne
          · exact hm
        simp only [fillVertexBuffers, if_neg hle, ih hin]
        split <;> simp
  exact hgen _ (List.mem_range.mpr hover)

theorem NextDataBuffers_recorded (buffers : List Buffer) (after : List Cell) :
    NextDataBuffers buffers.length (buffers.map Cell.bufferRef ++ after) = some buffers := by
  induction buffers with
  | nil => rfl
  | cons b rest ih => simp [NextDataBuffers, ih]

theorem NextDataUInt32_recorded (values : List Nat) (after : List Cell) :
    NextDataUInt32 values.length (values.map Cell.uint32 ++ after) = some values := by
  induction values with
  | nil => rfl
  | cons v rest ih => simp [NextDataUInt32, ih]

/-- The reads of `SetVertexBuffers` on a stream that holds, after the record, the
`count` buffers and the `count` offsets: the arrays are read back and the cursor
advances over both. -/
theorem decodeAt_SetVertexBuffers (startSlot count : Nat) (inRecordB : List Buffer)
    (inRecordO : List Nat) (buffers : List Buffer) (offsets : List Nat) (after : List Cell)
    (hb : buffers.length = count) (ho : offsets.length = count) :
    decodeAt (.SetVertexBuffers startSlot count inRecordB inRecordO)
        (buffers.map Cell.bufferRef ++ (offsets.map Cell.uint32 ++ after)) =
      some (.SetVertexBuffers startSlot count buffers offsets, count + count) := by
  have h1 : NextDataBuffers count
      (buffers.map Cell.bufferRef ++ (offsets.map Cell.uint32 ++ after)) = some buffers := by
    rw [← hb]; exact NextDataBuffers_recorded buffers _
  have hdrop : (buffers.map Cell.bufferRef ++ (offsets.map Cell.uint32 ++ after)).drop count
      = offsets.map Cell.uint32 ++ after := by
    rw [← hb]
    have hlen : (buffers.map Cell.bufferRef).length = buffers.length := List.length_map _ _
    rw [← hlen, List.drop_left]
  have h2 : NextDataUInt32 count
      ((buffers.map Cell.bufferRef ++ (offsets.map Cell.uint32 ++ after)).drop count)
        = some offsets := by
    rw [hdrop, ← ho]; exact NextDataUInt32_recorded offsets _
  simp only [decodeAt, h1, h2]

theorem recordStream_nil (h : Headers) (st : RecordState) :
    recordStream h st [] = ⟨.ok, st, []⟩ := by
  rw [recordStream]

/-- The loop on the encoded stream with the cursor on a command whose reads
succeed and whose `case` runs to its `break`. -/
theorem recordStream_command_ok (h : Headers) (st : RecordState) (cmd decoded : Command)
    (advance : Nat) (data : List Cell)
    (hdecode : decodeAt cmd data = some (decoded, advance))
    (hok : (recordCommand h st decoded).status = .ok) :
    recordStream h st (.command cmd :: data) =
      ⟨(recordStream h (recordCommand h st decoded).state (data.drop advance)).status,
       (recordStream h (recordCommand h st decoded).state (data.drop advance)).state,
       (recordCommand h st decoded).calls ++
         (recordStream h (recordCommand h st decoded).state (data.drop advance)).calls⟩ := by
  rw [recordStream]
  simp only [hdecode, hok]

/-- C11: for a `SetVertexBuffers` command with start slot `s`, count
`n ≤ kMaxVertexInputs`, `n` buffers and `n` offsets, the loop of the `case` writes
at the indices below `n` only, all inside the scratch arrays, and the `case` runs
to its `break` with exactly one call, `CmdBindVertexBuffers(s, n, handles,
offsets)`, where `handles` and `offsets` have `n` entries, the `i`-th handle is the
handle of the `i`-th buffer and the `i`-th offset is the `i`-th offset, unchanged
in value; no state changes.  On the encoded stream, with the cursor on the record
followed by the `n` buffers, the `n` offsets and then the cells `after`, the loop
makes that call and goes on with the cursor at the head of `after`: the next
command decoded is the one recorded after the two arrays. -/
theorem SetVertexBuffers_binds_and_advances (h : Headers) (st : RecordState)
    (startSlot count : Nat) (buffers : List Buffer) (offsets : List Nat)
    (inRecordB : List Buffer) (inRecordO : List Nat) (after : List Cell)
    (hcount : count ≤ h.kMaxVertexInputs)
    (hb : buffers.length = count) (ho : offsets.length = count) :
    (∀ i ∈ List.range count, i < h.kMaxVertexInputs) ∧
    fillVertexBuffers h buffers offsets (List.range count) ≠ none ∧
    (recordCommand h st (.SetVertexBuffers startSlot count buffers offsets)).status = .ok ∧
    (recordCommand h st (.SetVertexBuffers startSlot count buffers offsets)).state = st ∧
    (∃ handles widened : List Nat,
      (recordCommand h st (.SetVertexBuffers startSlot count buffers offsets)).calls =
        [.CmdBindVertexBuffers startSlot count handles widened] ∧
      handles = buffers.map (fun b => b.handle) ∧ widened = offsets ∧
      handles.length = count ∧ widened.length = count ∧
      (∀ i, i < count →
        handles[i]? = (buffers[i]?).map (fun b => b.handle) ∧ widened[i]? = offsets[i]?)) ∧
    decodeAt (.SetVertexBuffers startSlot count inRecordB inRecordO)
        (buffers.map Cell.bufferRef ++ (offsets.map Cell.uint32 ++ after)) =
      some (.SetVertexBuffers startSlot count buffers offsets, count + count) ∧
    (buffers.map Cell.bufferRef ++ (offsets.map Cell.uint32 ++ after)).drop (count + count)
      = after ∧
    recordStream h st
        (.command (.SetVertexBuffers startSlot count inRecordB inRecordO) ::
          (buffers.map Cell.bufferRef ++ (offsets.map Cell.uint32 ++ after))) =
      ⟨(recordStream h st after).status, (recordStream h st after).state,
       .CmdBindVertexBuffers startSlot count (buffers.map (fun b => b.handle)) offsets ::
        (recordStream h st after).calls⟩ := by
  have hinside : ∀ i ∈ List.range count, i < h.kMaxVertexInputs ∧ i < buffers.length ∧
      i < offsets.length := by
    intro i hi
    have := List.mem_range.mp hi
    omega
  have hfill := fillVertexBuffers_inside h buffers offsets (List.range count) hinside
  have hhandles : ((List.range count).map
      (fun i => ((buffers.getD i ⟨0, 0⟩).handle, offsets.getD i 0))).map Prod.fst
      = buffers.map (fun b => b.handle) := by
    rw [List.map_map]
    have hm := map_range_getD buffers ⟨0, 0⟩
    rw [hb] at hm
    conv_rhs => rw [← hm, List.map_map]
    rfl
  have hoffsets : ((List.range count).map
      (fun i => ((buffers.getD i ⟨0, 0⟩).handle, offsets.getD i 0))).map Prod.snd
      = offsets := by
    rw [List.map_map]
    have hm := map_range_getD offsets 0
    rw [ho] at hm
    conv_rhs => rw [← hm]
    rfl
  have hstep : recordCommand h st (.SetVertexBuffers startSlot count buffers offsets) =
      ⟨.ok, st,
        [.CmdBindVertexBuffers startSlot count (buffers.map (fun b => b.handle)) offsets]⟩ := by
    simp only [recordCommand, hfill, hhandles, hoffsets]
  have hdecode := decodeAt_SetVertexBuffers startSlot count inRecordB inRecordO buffers
    offsets after hb ho
  have hdrop : (buffers.map Cell.bufferRef ++ (offsets.map Cell.uint32 ++ after)).drop
      (count + count) = after := by
    have hlen : (buffers.map Cell.bufferRef ++ offsets.map Cell.uint32).length
        = count + count := by
      simp [hb, ho]
    rw [← List.append_assoc, ← hlen, List.drop_left]
  refine ⟨fun i hi => (hinside i hi).1, ?_, ?_, ?_, ?_, hdecode, hdrop, ?_⟩
  · rw [hfill]; simp
  · rw [hstep]
  · rw [hstep]
  · refine ⟨buffers.map (fun b => b.handle), offsets, ?_, rfl, rfl, ?_, ho, ?_⟩
    · rw [hstep]
    · rw [List.length_map, hb]
    · intro i _
      exact ⟨List.getElem?_map _ _ _, rfl⟩
  · rw [recordStream_command_ok h st _ _ _ _ hdecode (by rw [hstep]), hdrop, hstep]
    rfl

theorem SetVertexBuffers_binds_and_advances_witness :
    recordStream sampleHeaders sampleState
        (.command (.SetVertexBuffers 0 2 [] []) ::
          ([⟨31, 32⟩, ⟨33, 34⟩].map Cell.bufferRef ++
            ([0, 256].map Cell.uint32 ++ [.command (.DrawArrays 3 1 0 0)]))) =
      ⟨.ok, sampleState,
        [.CmdBindVertexBuffers 0 2 [32, 34] [0, 256], .CmdDraw 3 1 0 0]⟩ := by
  have hafter : recordStream sampleHeaders sampleState [.command (.DrawArrays 3 1 0 0)] =
      ⟨.ok, sampleState, [.CmdDraw 3 1 0 0]⟩ := by
    rw [recordStream_command_ok sampleHeaders sampleState (.DrawArrays 3 1 0 0)
      (.DrawArrays 3 1 0 0) 0 [] rfl rfl, List.drop_nil, recordStream_nil]
    rfl
  have hmain := (SetVertexBuffers_binds_and_advances sampleHeaders sampleState 0 2
    [⟨31, 32⟩, ⟨33, 34⟩] [0, 256] [] [] [.command (.DrawArrays 3 1 0 0)]
    (by decide) rfl rfl).2.2.2.2.2.2.2
  rw [hmain, hafter]
  rfl

/-- The loop on the encoded stream with the cursor on a command whose reads
succeed and whose `case` does not run to its `break`. -/
theorem recordStream_command_stop (h : Headers) (st : RecordState) (cmd decoded : Command)
    (advance : Nat) (data : List Cell)
    (hdecode : decodeAt cmd data = some (decoded, advance))
    (hstop : (recordCommand h st decoded).status ≠ .ok) :
    recordStream h st (.command cmd :: data) = recordCommand h st decoded := by
  rw [recordStream]
  simp only [hdecode]

/-- The reads at the cursor give back a command recorded with arrays of the
announced length, and advance the cursor over its arrays. -/
theorem decodeAt_encodeCommand (cmd : Command) (hmatch : cmd.arraysMatchCount)
    (after : List Cell) :
    ∃ record data, encodeCommand cmd ++ after = .command record :: data ∧
      ∃ advance, decodeAt record data = some (cmd, advance) ∧ data.drop advance = after := by
  cases cmd with
  | SetVertexBuffers startSlot count buffers offsets =>
    obtain ⟨hb, ho⟩ := hmatch
    refine ⟨.SetVertexBuffers startSlot count [] [],
      buffers.map Cell.bufferRef ++ (offsets.map Cell.uint32 ++ after), ?_, count + count,
      decodeAt_SetVertexBuffers startSlot count [] [] buffers offsets after hb ho, ?_⟩
    · simp [encodeCommand]
    · have hlen : (buffers.map Cell.bufferRef ++ offsets.map Cell.uint32).length
          = count + count := by
        simp [hb, ho]
      rw [← List.append_assoc, ← hlen, List.drop_left]
  | _ => exact ⟨_, after, rfl, 0, rfl, rfl⟩

/-- Replaying the stream recorded for a list of commands, each with arrays of the
announced length, is replaying the commands one after the other. -/
theorem recordStream_encodeStream (h : Headers) (cmds : List Command)
    (hmatch : ∀ c ∈ cmds, c.arraysMatchCount) :
    ∀ st : RecordState, recordStream h st (encodeStream cmds) = recordLoop h st cmds := by
  induction cmds with
  | nil => intro st; rw [encodeStream, recordStream_nil, recordLoop_nil]
  | cons cmd rest ih =>
    intro st
    have hrest := ih (fun c hc => hmatch c (List.mem_cons_of_mem _ hc))
    obtain ⟨record, data, hsplit, advance, hdecode, hdrop⟩ :=
      decodeAt_encodeCommand cmd (hmatch cmd (List.mem_cons_self _ _)) (encodeStream rest)
    rw [encodeStream, hsplit]
    by_cases hok : (recordCommand h st cmd).status = .ok
    · rw [recordStream_command_ok h st record cmd advance data hdecode hok, hdrop, hrest,
        recordLoop_cons_ok h st cmd rest hok]
    · rw [recordStream_command_stop h st record cmd advance data hdecode hok,
        recordLoop_cons_stop h st cmd rest hok]

/-! ## Resources no command names -/

/-- The attachment loop leaves a texture that is none of the attachments visited at
its usage. -/
theorem transitionAttachments_usage_other (h : Headers) (framebuffer : Framebuffer)
    (texture : Texture) (indices : List Nat)
    (hother : ∀ i ∈ indices, (framebuffer.textureView i).texture ≠ texture) :
    ∀ usage : Texture → Nat,
      (transitionAttachments h framebuffer indices usage).1 texture = usage texture := by
  induction indices with
  | nil => intro usage; rfl
  | cons i rest ih =>
    intro usage
    have hi := hother i (List.mem_cons_self _ _)
    have hrest := ih (fun j hj => hother j (List.mem_cons_of_mem _ hj))
    simp only [transitionAttachments]
    split_ifs
    · exact hrest usage
    · rw [hrest]
      simp [setTextureUsage, Ne.symm hi]

/-- The attachment loop records a barrier on a texture only when the texture is
one of the attachments visited. -/
theorem transitionAttachments_barrier_named (h : Headers) (framebuffer : Framebuffer)
    (texture : Texture) (current target : Nat) (indices : List Nat) :
    ∀ usage : Texture → Nat,
      Call.TextureRecordBarrier texture current target ∈
        (transitionAttachments h framebuffer indices usage).2 →
      ∃ i ∈ indices, (framebuffer.textureView i).texture = texture := by
  induction indices with
  | nil => intro usage hc; simp [transitionAttachments] at hc
  | cons i rest ih =>
    intro usage hc
    simp only [transitionAttachments] at hc
    split_ifs at hc
    · obtain ⟨j, hj, hjt⟩ := ih _ hc
      exact ⟨j, List.mem_cons_of_mem _ hj, hjt⟩
    · rcases List.mem_cons.mp hc with hc | hc
      · have heq : texture = (framebuffer.textureView i).texture := by
          injection hc
        exact ⟨i, List.mem_cons_self _ _, heq.symm⟩
      · obtain ⟨j, hj, hjt⟩ := ih _ hc
        exact ⟨j, List.mem_cons_of_mem _ hj, hjt⟩

/-- A call of `BeginRenderPass` is a barrier of the attachment loop or one of the
calls that follow the `ASSERT`s. -/
theorem recordCommand_BeginRenderPass_mem (h : Headers) (st : RecordState)
    (renderPass : RenderPass) (framebuffer : Framebuffer) (call : Call)
    (hcall : call ∈ (recordCommand h st (.BeginRenderPass renderPass framebuffer)).calls) :
    call ∈ (transitionAttachments h framebuffer (List.range renderPass.attachmentCount)
        st.textureUsage).2 ∨
      call ∈ openRenderPass renderPass framebuffer := by
  by_cases hgood : renderPass.subpassCount = 1 ∧
      renderPass.attachmentCount ≤ h.kMaxColorAttachments + 1
  · rw [recordCommand_BeginRenderPass_ok h st _ _ hgood.1 hgood.2] at hcall
    exact List.mem_append.mp hcall
  · have hbad : renderPass.subpassCount ≠ 1 ∨
        h.kMaxColorAttachments + 1 < renderPass.attachmentCount := by
      by_cases hsub : renderPass.subpassCount = 1
      · right
        have := fun hle => hgood ⟨hsub, hle⟩
        omega
      · exact Or.inl hsub
    rw [recordCommand_BeginRenderPass_fatal h st _ _ hbad] at hcall
    exact Or.inl hcall

/-- A command other than a `TransitionBufferUsage` of the buffer leaves the usage
of the buffer as it was and records no barrier on it. -/
theorem recordCommand_buffer_untouched (h : Headers) (st : RecordState) (cmd : Command)
    (buffer : Buffer) (hcmd : ∀ u, cmd ≠ Command.TransitionBufferUsage buffer u) :
    (recordCommand h st cmd).state.bufferUsage buffer = st.bufferUsage buffer ∧
    ∀ call ∈ (recordCommand h st cmd).calls, ∀ current target,
      call ≠ Call.BufferRecordBarrier buffer current target := by
  cases cmd with
  | TransitionBufferUsage named u =>
    have hne : buffer ≠ named := fun hb => hcmd u (by rw [hb])
    refine ⟨by simp [recordCommand, setBufferUsage, hne], ?_⟩
    intro call hcall current target
    simp only [recordCommand, List.mem_singleton] at hcall
    subst hcall
    intro hbar
    injection hbar with hnamed
    exact hne hnamed.symm
  | BeginRenderPass renderPass framebuffer =>
    constructor
    · simp only [recordCommand]
      split_ifs <;> rfl
    · intro call hcall current target
      rcases recordCommand_BeginRenderPass_mem h st _ _ call hcall with hc | hc
      · obtain ⟨t, a, b, rfl⟩ := transitionAttachments_calls h _ _ _ call hc
        simp
      · simp [openRenderPass] at hc
        rcases hc with rfl | rfl | rfl | rfl | rfl | rfl <;> simp
  | CopyBufferToTexture src dst rowPitch =>
    constructor
    · simp only [recordCommand]; split <;> rfl
    · intro call hcall current target
      simp only [recordCommand] at hcall
      split at hcall <;> simp at hcall
      subst hcall; simp
  | CopyTextureToBuffer src dst rowPitch =>
    constructor
    · simp only [recordCommand]; split <;> rfl
    · intro call hcall current target
      simp only [recordCommand] at hcall
      split at hcall <;> simp at hcall
      subst hcall; simp
  | SetVertexBuffers startSlot count buffers offsets =>
    constructor
    · simp only [recordCommand]; split <;> rfl
    · intro call hcall current target
      simp only [recordCommand] at hcall
      split at hcall <;> simp at hcall
      subst hcall; simp
  | SetBindGroup index group =>
    constructor
    · simp only [recordCommand]; split <;> rfl
    · intro call hcall current target
      simp only [recordCommand] at hcall
      split at hcall <;> simp at hcall
      subst hcall; simp
  | EndRenderSubpass => exact ⟨rfl, fun call hcall => by simp [recordCommand] at hcall⟩
  | Other id => exact ⟨rfl, fun call hcall => by simp [recordCommand] at hcall⟩
  | _ =>
    refine ⟨rfl, ?_⟩
    intro call hcall current target
    simp [recordCommand] at hcall
    subst hcall; simp

/-- A command other than a `TransitionTextureUsage` of the texture and other than a
`BeginRenderPass` that has the texture among its attachments leaves the usage of
the texture as it was and records no barrier on it. -/
theorem recordCommand_texture_untouched (h : Headers) (st : RecordState) (cmd : Command)
    (texture : Texture) (hcmd : ∀ u, cmd ≠ Command.TransitionTextureUsage texture u)
    (hpass : ∀ renderPass framebuffer, cmd = Command.BeginRenderPass renderPass framebuffer →
      ∀ i, i < renderPass.attachmentCount → (framebuffer.textureView i).texture ≠ texture) :
    (recordCommand h st cmd).state.textureUsage texture = st.textureUsage texture ∧
    ∀ call ∈ (recordCommand h st cmd).calls, ∀ current target,
      call ≠ Call.TextureRecordBarrier texture current target := by
  cases cmd with
  | TransitionTextureUsage named u =>
    have hne : texture ≠ named := fun ht => hcmd u (by rw [ht])
    refine ⟨by simp [recordCommand, setTextureUsage, hne], ?_⟩
    intro call hcall current target
    simp only [recordCommand, List.mem_singleton] at hcall
    subst hcall
    intro hbar
    injection hbar with hnamed
    exact hne hnamed.symm
  | BeginRenderPass renderPass framebuffer =>
    have hother : ∀ i ∈ List.range renderPass.attachmentCount,
        (framebuffer.textureView i).texture ≠ texture :=
      fun i hi => hpass renderPass framebuffer rfl i (List.mem_range.mp hi)
    have hloop : ∀ call ∈ (transitionAttachments h framebuffer
        (List.range renderPass.attachmentCount) st.textureUsage).2, ∀ current target,
        call ≠ Call.TextureRecordBarrier texture current target := by
      intro call hcall current target heq
      subst heq
      obtain ⟨i, hi, hit⟩ := transitionAttachments_barrier_named h framebuffer texture
        current target _ _ hcall
      exact hother i hi hit
    constructor
    · have hstate : (recordCommand h st (.BeginRenderPass renderPass framebuffer)).state.textureUsage
          = (transitionAttachments h framebuffer (List.range renderPass.attachmentCount)
            st.textureUsage).1 := by
        simp only [recordCommand]
        split_ifs <;> rfl
      rw [hstate]
      exact transitionAttachments_usage_other h framebuffer texture _ hother _
    · intro call hcall current target
      rcases recordCommand_BeginRenderPass_mem h st _ _ call hcall with hc | hc
      · exact hloop call hc current target
      · simp [openRenderPass] at hc
        rcases hc with rfl | rfl | rfl | rfl | rfl | rfl <;> simp
  | CopyBufferToTexture src dst rowPitch =>
    constructor
    · simp only [recordCommand]; split <;> rfl
    · intro call hcall current target
      simp only [recordCommand] at hcall
      split at hcall <;> simp at hcall
      subst hcall; simp
  | CopyTextureToBuffer src dst rowPitch =>
    constructor
    · simp only [recordCommand]; split <;> rfl
    · intro call hcall current target
      simp only [recordCommand] at hcall
      split at hcall <;> simp at hcall
      subst hcall; simp
  | SetVertexBuffers startSlot count buffers offsets =>
    constructor
    · simp only [recordCommand]; split <;> rfl
    · intro call hcall current target
      simp only [recordCommand] at hcall
      split at hcall <;> simp at hcall
      subst hcall; simp
  | SetBindGroup index group =>
    constructor
    · simp only [recordCommand]; split <;> rfl
    · intro call hcall current target
      simp only [recordCommand] at hcall
      split at hcall <;> simp at hcall
      subst hcall; simp
  | EndRenderSubpass => exact ⟨rfl, fun call hcall => by simp [recordCommand] at hcall⟩
  | Other id => exact ⟨rfl, fun call hcall => by simp [recordCommand] at hcall⟩
  | _ =>
    refine ⟨rfl, ?_⟩
    intro call hcall current target
    simp [recordCommand] at hcall
    subst hcall; simp

/-- A stream with no `TransitionBufferUsage` of the buffer leaves its usage as it
was and records no barrier on it, from any state. -/
theorem recordLoop_buffer_untouched (h : Headers) (buffer : Buffer) (cmds : List Command)
    (hcmds : ∀ c ∈ cmds, ∀ u, c ≠ Command.TransitionBufferUsage buffer u) :
    ∀ st : RecordState,
      (recordLoop h st cmds).state.bufferUsage buffer = st.bufferUsage buffer ∧
      ∀ call ∈ (recordLoop h st cmds).calls, ∀ current target,
        call ≠ Call.BufferRecordBarrier buffer current target := by
  induction cmds with
  | nil =>
    intro st
    exact ⟨rfl, fun call hcall => by simp [recordLoop_nil] at hcall⟩
  | cons cmd rest ih =>
    intro st
    obtain ⟨hkeep, hnone⟩ := recordCommand_buffer_untouched h st cmd buffer
      (hcmds cmd (List.mem_cons_self _ _))
    have hrest := ih (fun c hc => hcmds c (List.mem_cons_of_mem _ hc))
    by_cases hok : (recordCommand h st cmd).status = .ok
    · rw [recordLoop_cons_ok h st cmd rest hok]
      obtain ⟨hkeep2, hnone2⟩ := hrest (recordCommand h st cmd).state
      refine ⟨by simp only; rw [hkeep2, hkeep], ?_⟩
      intro call hcall
      rcases List.mem_append.mp hcall with hc | hc
      · exact hnone call hc
      · exact hnone2 call hc
    · rw [recordLoop_cons_stop h st cmd rest hok]
      exact ⟨hkeep, hnone⟩

/-- A stream with no `TransitionTextureUsage` of the texture and no `BeginRenderPass`
that has the texture among its attachments leaves its usage as it was and records
no barrier on it, from any state. -/
theorem recordLoop_texture_untouched (h : Headers) (texture : Texture) (cmds : List Command)
    (hcmds : ∀ c ∈ cmds, ∀ u, c ≠ Command.TransitionTextureUsage texture u)
    (hpass : ∀ c ∈ cmds, ∀ renderPass framebuffer,
      c = Command.BeginRenderPass renderPass framebuffer →
      ∀ i, i < renderPass.attachmentCount → (framebuffer.textureView i).texture ≠ texture) :
    ∀ st : RecordState,
      (recordLoop h st cmds).state.textureUsage texture = st.textureUsage texture ∧
      ∀ call ∈ (recordLoop h st cmds).calls, ∀ current target,
        call ≠ Call.TextureRecordBarrier texture current target := by
  induction cmds with
  | nil =>
    intro st
    exact ⟨rfl, fun call hcall => by simp [recordLoop_nil] at hcall⟩
  | cons cmd rest ih =>
    intro st
    obtain ⟨hkeep, hnone⟩ := recordCommand_texture_untouched h st cmd texture
      (hcmds cmd (List.mem_cons_self _ _)) (hpass cmd (List.mem_cons_self _ _))
    have hrest := ih (fun c hc => hcmds c (List.mem_cons_of_mem _ hc))
      (fun c hc => hpass c (List.mem_cons_of_mem _ hc))
    by_cases hok : (recordCommand h st cmd).status = .ok
    · rw [recordLoop_cons_ok h st cmd rest hok]
      obtain ⟨hkeep2, hnone2⟩ := hrest (recordCommand h st cmd).state
      refine ⟨by simp only; rw [hkeep2, hkeep], ?_⟩
      intro call hcall
      rcases List.mem_append.mp hcall with hc | hc
      · exact hnone call hc
      · exact hnone2 call hc
    · rw [recordLoop_cons_stop h st cmd rest hok]
      exact ⟨hkeep, hnone⟩

/-- C12: after `RecordCommands` on any stream (so on every stream on which it runs
to its end), a buffer whose usage differs from the one before, or on which a
barrier was recorded, is named by a `TransitionBufferUsage` command of the stream;
a texture whose usage differs from the one before, or on which a barrier was
recorded, is named by a `TransitionTextureUsage` command of the stream or is the
attachment at an index below the attachment count of the render pass, in the
framebuffer, of a `BeginRenderPass` command of the stream.  Every other resource,
the buffers and textures of copy commands and the bound vertex and index buffers
included, keeps its usage and gets no barrier. -/
theorem usage_changes_only_when_named (h : Headers) (bufferUsage : Buffer → Nat)
    (textureUsage : Texture → Nat) (cmds : List Command) :
    (∀ buffer : Buffer,
      ((RecordCommands h bufferUsage textureUsage cmds).state.bufferUsage buffer
          ≠ bufferUsage buffer ∨
        ∃ current target, Call.BufferRecordBarrier buffer current target ∈
          (RecordCommands h bufferUsage textureUsage cmds).calls) →
      ∃ u, Command.TransitionBufferUsage buffer u ∈ cmds) ∧
    (∀ texture : Texture,
      ((RecordCommands h bufferUsage textureUsage cmds).state.textureUsage texture
          ≠ textureUsage texture ∨
        ∃ current target, Call.TextureRecordBarrier texture current target ∈
          (RecordCommands h bufferUsage textureUsage cmds).calls) →
      (∃ u, Command.TransitionTextureUsage texture u ∈ cmds) ∨
      ∃ renderPass framebuffer i, Command.BeginRenderPass renderPass framebuffer ∈ cmds ∧
        i < renderPass.attachmentCount ∧ (framebuffer.textureView i).texture = texture) ∧
    (∀ buffer : Buffer, (∀ c ∈ cmds, ∀ u, c ≠ Command.TransitionBufferUsage buffer u) →
      (RecordCommands h bufferUsage textureUsage cmds).state.bufferUsage buffer
          = bufferUsage buffer ∧
      ∀ call ∈ (RecordCommands h bufferUsage textureUsage cmds).calls, ∀ current target,
        call ≠ Call.BufferRecordBarrier buffer current target) ∧
    (∀ texture : Texture, (∀ c ∈ cmds, ∀ u, c ≠ Command.TransitionTextureUsage texture u) →
      (∀ c ∈ cmds, ∀ renderPass framebuffer,
        c = Command.BeginRenderPass renderPass framebuffer →
        ∀ i, i < renderPass.attachmentCount → (framebuffer.textureView i).texture ≠ texture) →
      (RecordCommands h bufferUsage textureUsage cmds).state.textureUsage texture
          = textureUsage texture ∧
      ∀ call ∈ (RecordCommands h bufferUsage textureUsage cmds).calls, ∀ current target,
        call ≠ Call.TextureRecordBarrier texture current target) := by
  have hbuf : ∀ buffer : Buffer,
      (∀ c ∈ cmds, ∀ u, c ≠ Command.TransitionBufferUsage buffer u) →
      (RecordCommands h bufferUsage textureUsage cmds).state.bufferUsage buffer
          = bufferUsage buffer ∧
      ∀ call ∈ (RecordCommands h bufferUsage textureUsage cmds).calls, ∀ current target,
        call ≠ Call.BufferRecordBarrier buffer current target :=
    fun buffer hcmds => recordLoop_buffer_untouched h buffer cmds hcmds _
  have htex : ∀ texture : Texture,
      (∀ c ∈ cmds, ∀ u, c ≠ Command.TransitionTextureUsage texture u) →
      (∀ c ∈ cmds, ∀ renderPass framebuffer,
        c = Command.BeginRenderPass renderPass framebuffer →
        ∀ i, i < renderPass.attachmentCount → (framebuffer.textureView i).texture ≠ texture) →
      (RecordCommands h bufferUsage textureUsage cmds).state.textureUsage texture
          = textureUsage texture ∧
      ∀ call ∈ (RecordCommands h bufferUsage textureUsage cmds).calls, ∀ current target,
        call ≠ Call.TextureRecordBarrier texture current target :=
    fun texture hcmds hpass => recordLoop_texture_untouched h texture cmds hcmds hpass _
  refine ⟨?_, ?_, hbuf, htex⟩
  · intro buffer hchanged
    by_contra hnot
    have hcmds : ∀ c ∈ cmds, ∀ u, c ≠ Command.TransitionBufferUsage buffer u :=
      fun c hc u heq => hnot ⟨u, heq ▸ hc⟩
    obtain ⟨hkeep, hnone⟩ := hbuf buffer hcmds
    rcases hchanged with hdiff | ⟨current, target, hmem⟩
    · exact hdiff hkeep
    · exact hnone _ hmem current target rfl
  · intro texture hchanged
    by_contra hnot
    push_neg at hnot
    have hcmds : ∀ c ∈ cmds, ∀ u, c ≠ Command.TransitionTextureUsage texture u :=
      fun c hc u heq => hnot.1 u (heq ▸ hc)
    have hpass : ∀ c ∈ cmds, ∀ renderPass framebuffer,
        c = Command.BeginRenderPass renderPass framebuffer →
        ∀ i, i < renderPass.attachmentCount →
          (framebuffer.textureView i).texture ≠ texture :=
      fun c hc renderPass framebuffer heq i hi =>
        hnot.2 renderPass framebuffer i (heq ▸ hc) hi
    obtain ⟨hkeep, hnone⟩ := htex texture hcmds hpass
    rcases hchanged with hdiff | ⟨current, target, hmem⟩
    · exact hdiff hkeep
    · exact hnone _ hmem current target rfl

theorem usage_changes_only_when_named_witness :
    (RecordCommands sampleHeaders (fun _ => 1) (fun _ => 4)
      [.CopyBufferToBuffer ⟨⟨31, 32⟩, 0⟩ ⟨⟨33, 34⟩, 0⟩ 16,
       .SetIndexBuffer ⟨31, 32⟩ 0,
       .SetVertexBuffers 0 1 [⟨31, 32⟩] [0],
       .TransitionBufferUsage ⟨33, 34⟩ 2,
       .BeginRenderPass sampleRenderPass sampleFramebuffer]).state.bufferUsage ⟨31, 32⟩ = 1 :=
  ((usage_changes_only_when_named sampleHeaders (fun _ => 1) (fun _ => 4)
      [.CopyBufferToBuffer ⟨⟨31, 32⟩, 0⟩ ⟨⟨33, 34⟩, 0⟩ 16,
       .SetIndexBuffer ⟨31, 32⟩ 0,
       .SetVertexBuffers 0 1 [⟨31, 32⟩] [0],
       .TransitionBufferUsage ⟨33, 34⟩ 2,
       .BeginRenderPass sampleRenderPass sampleFramebuffer]).2.2.1 ⟨31, 32⟩
    (by simp)).1

end backend.vulkan
